import Mathlib

set_option maxRecDepth 100000

/-!
Verification development for the chorus prompt-versioning core:
`src/chorus/core/versioning.py`, `src/chorus/core/models.py`,
`src/chorus/core/storage.py` and `src/chorus/decorators/chorus.py`,
shallowly embedded over `List Char` strings.

Modelling notes that apply throughout:
* Python strings are `List Char`; character-class predicates (`str.isdigit`,
  `str.strip`, `str.lower`) are modelled over the ASCII repertoire, which is
  the repertoire every claim exercises.
* Python float ratio comparisons (`x > 0.6` and friends) are modelled as
  exact integer cross-multiplications; the two agree away from values within
  one double ulp of the literal thresholds, and no claim exercises such a
  boundary.
* File I/O is modelled by passing the directory contents in explicitly; a
  file is either syntactically invalid JSON or a parsed JSON value.
-/

/-- Python strings are modelled as lists of unicode characters. -/
abbrev PyStr := List Char

/-- Embed a Lean string literal into the model's string type. -/
def pys (s : String) : PyStr := s.data

/-- Python whitespace (`str.strip`, `\s`), ASCII repertoire. -/
def isSpaceChar (c : Char) : Bool :=
  c = ' ' || c = '\t' || c = '\n' || c = '\r' || c = '\x0b' || c = '\x0c'

/-- ASCII decimal digit, the repertoire `str.isdigit` accepts here. -/
def isDigitChar (c : Char) : Bool := '0' ≤ c && c ≤ '9'

/-- ASCII letter. -/
def isAlphaChar (c : Char) : Bool :=
  ('a' ≤ c && c ≤ 'z') || ('A' ≤ c && c ≤ 'Z')

/-- Python `str.lower`, ASCII repertoire. -/
def toLowerChar (c : Char) : Char :=
  if 'A' ≤ c && c ≤ 'Z' then Char.ofNat (c.toNat + 32) else c

/-- The decimal digit character for `n < 10` (stand-in `'0'` otherwise). -/
def digitChar : Nat → Char
  | 0 => '0' | 1 => '1' | 2 => '2' | 3 => '3' | 4 => '4'
  | 5 => '5' | 6 => '6' | 7 => '7' | 8 => '8' | 9 => '9'
  | _ => '0'

/-- Fuel-driven digit rendering (structural recursion so the kernel can
evaluate it; the fuel is always sufficient at the call site). -/
def natDigitsF : Nat → Nat → PyStr
  | 0, _ => []
  | fuel + 1, n =>
    if n < 10 then [digitChar n]
    else natDigitsF fuel (n / 10) ++ [digitChar (n % 10)]

/-- Decimal rendering of a natural number, as Python `str`/f-strings print it
(no leading zeros, `0` for zero). -/
def natDigits (n : Nat) : PyStr := natDigitsF (n + 1) n

/-- Numeric value of a digit character. -/
def digitVal (c : Char) : Nat := c.toNat - 48

/-- Decimal value of a digit string (Python `int` on an all-digit string). -/
def readNat (l : PyStr) : Nat := l.foldl (fun acc c => 10 * acc + digitVal c) 0

/-- Python `str.isdigit`: nonempty and all digits (ASCII model). -/
def pyIsDigit (l : PyStr) : Bool := !l.isEmpty && l.all isDigitChar

/-- Python `str.split(sep)` for a one-character separator: splits at every
occurrence and keeps empty pieces, `"".split(sep) == [""]`. -/
def splitOn (sep : Char) : PyStr → List PyStr
  | [] => [[]]
  | c :: t =>
    if c = sep then [] :: splitOn sep t
    else
      match splitOn sep t with
      | [] => [[c]]
      | h :: r => (c :: h) :: r

/-- Python `s.split(sep)[0]`: the piece before the first separator. -/
def upToFirst (sep : Char) (l : PyStr) : PyStr := (splitOn sep l).headD []

/-- Split at the first occurrence of `sep`, keeping everything after it
(with later separators) as one optional remainder. -/
def splitFirstRest (sep : Char) (l : PyStr) : PyStr × Option PyStr :=
  match splitOn sep l with
  | [] => ([], none)
  | h :: t => (h, if t.isEmpty then none else some (List.intercalate [sep] t))

/-- Python substring containment (`needle in hay`). -/
def strIn (needle : PyStr) : PyStr → Bool
  | [] => needle.isEmpty
  | c :: t => needle.isPrefixOf (c :: t) || strIn needle t

/-- Python `str.lstrip()` (whitespace). -/
def pyStripL (l : PyStr) : PyStr := l.dropWhile isSpaceChar

/-- Python `str.rstrip()` (whitespace). -/
def pyStripR (l : PyStr) : PyStr := (l.reverse.dropWhile isSpaceChar).reverse

/-- Python `str.strip()` (whitespace). -/
def pyStrip (l : PyStr) : PyStr := pyStripR (pyStripL l)

/-- Collapse every whitespace run to a single `' '`
(the effect of `re.sub(r'\s+', ' ', s)`). -/
def collapseRuns : PyStr → PyStr
  | [] => []
  | [c] => [if isSpaceChar c then ' ' else c]
  | a :: b :: t =>
    if isSpaceChar a && isSpaceChar b then collapseRuns (b :: t)
    else (if isSpaceChar a then ' ' else a) :: collapseRuns (b :: t)

/-- Fuel-driven whitespace splitting (structural recursion so the kernel
can evaluate it; the fuel is always sufficient at the call site). -/
def splitWsF : Nat → PyStr → List PyStr
  | 0, _ => []
  | _ + 1, [] => []
  | fuel + 1, c :: t =>
    if isSpaceChar c then splitWsF fuel t
    else (c :: t.takeWhile (fun x => !isSpaceChar x)) ::
      splitWsF fuel (t.dropWhile (fun x => !isSpaceChar x))

/-- Python `s.split()` (no argument): maximal nonempty runs of
non-whitespace characters. -/
def splitWs (l : PyStr) : List PyStr := splitWsF l.length l

/-- Python `set(s.split())` modelled as the deduplicated word list. -/
def wordSet (l : PyStr) : List PyStr := (splitWs l).dedup

/-- Python set intersection on the list model. -/
def pyInter (a b : List PyStr) : List PyStr := a.filter (fun x => decide (x ∈ b))

/-- Python set union on the list model. -/
def pyUnion (a b : List PyStr) : List PyStr := a ++ b.filter (fun x => decide (x ∉ a))

/-- Distance `abs (a - b)` on naturals. -/
def natAbsDiff (a b : Nat) : Nat := max a b - min a b

/-! ## versioning.py -/

/-- The `_normalize_prompt` function of `versioning.py`:
`re.sub(r'\s+', ' ', prompt.strip()).lower()`. -/
def _normalize_prompt (prompt : PyStr) : PyStr :=
  (collapseRuns (pyStrip prompt)).map toLowerChar

/-- The `breaking_keywords` list of `_is_major_change`. -/
def breaking_keywords : List PyStr :=
  [pys "instead of", pys "no longer", pys "removed", pys "deprecated",
   pys "breaking", pys "change from", pys "replaced with",
   pys "completely different", pys "new approach", pys "different format",
   pys "different structure", pys "different output", pys "must not",
   pys "cannot", pys "will not", pys "discontinued", pys "obsolete",
   pys "migrate to", pys "upgrade to", pys "switch to", pys "abandoned"]

/-- The `feature_keywords` list of `_is_minor_change`. -/
def feature_keywords : List PyStr :=
  [pys "also", pys "additionally", pys "new", pys "enhanced", pys "improved",
   pys "better", pys "more", pys "extra", pys "additional", pys "further",
   pys "extended", pys "expanded", pys "support for", pys "now supports",
   pys "can also", pys "in addition", pys "optionally", pys "option",
   pys "feature", pys "capability", pys "functionality", pys "include",
   pys "incorporate", pys "integrate", pys "combine", pys "merge"]

/-- The `functionality_indicators` list of `_is_minor_change`. -/
def functionality_indicators : List PyStr :=
  [pys "you can now", pys "it is now possible", pys "added support",
   pys "new feature", pys "enhanced with", pys "upgraded to include",
   pys "now includes", pys "now provides", pys "now offers"]

/-- The `_is_major_change` check of `versioning.py`, on already-normalized
prompts.  Ratio comparisons with the float literals 0.6, 0.25 and 0.8 are
modelled as exact integer cross-multiplications. -/
def _is_major_change (old_prompt new_prompt : PyStr) : Bool :=
  (breaking_keywords.any fun k => strIn k new_prompt && !strIn k old_prompt) ||
  (let old_sentences := splitOn '.' old_prompt
   let new_sentences := splitOn '.' new_prompt
   decide (0 < new_sentences.length) && decide (0 < old_sentences.length) &&
     decide (10 * natAbsDiff new_sentences.length old_sentences.length >
       6 * max old_sentences.length 1)) ||
  (!new_prompt.isEmpty && !old_prompt.isEmpty &&
   (let old_words := wordSet old_prompt
    let new_words := wordSet new_prompt
    let common_words := pyInter old_words new_words
    let total_words := pyUnion old_words new_words
    decide (0 < total_words.length) &&
      decide (4 * common_words.length < total_words.length))) ||
  (!old_prompt.isEmpty &&
    decide (10 * natAbsDiff new_prompt.length old_prompt.length >
      8 * old_prompt.length))

/-- The `_is_minor_change` check of `versioning.py`, on already-normalized
prompts.  The float literal 1.3 is modelled as the exact ratio 13/10. -/
def _is_minor_change (old_prompt new_prompt : PyStr) : Bool :=
  (feature_keywords.any fun k => strIn k new_prompt && !strIn k old_prompt) ||
  (let old_words := wordSet old_prompt
   let new_words := wordSet new_prompt
   decide (8 < (new_words.filter fun x => decide (x ∉ old_words)).length)) ||
  (!old_prompt.isEmpty &&
    decide (13 * old_prompt.length < 10 * new_prompt.length)) ||
  (let old_sentences := ((splitOn '.' old_prompt).map pyStrip).filter
      fun s => !s.isEmpty
   let new_sentences := ((splitOn '.' new_prompt).map pyStrip).filter
      fun s => !s.isEmpty
   decide (old_sentences.length + 1 < new_sentences.length)) ||
  (functionality_indicators.any fun k => strIn k new_prompt && !strIn k old_prompt)

/-- The `analyze_prompt_changes` classifier of `versioning.py`. -/
def analyze_prompt_changes (old_prompt new_prompt : PyStr) : PyStr :=
  if old_prompt = new_prompt then pys "patch"
  else
    let old_normalized := _normalize_prompt old_prompt
    let new_normalized := _normalize_prompt new_prompt
    if _is_major_change old_normalized new_normalized then pys "major"
    else if _is_minor_change old_normalized new_normalized then pys "minor"
    else pys "patch"

/-- The `parse_version_parts` function of `versioning.py`:
`version.split('-')[0].split('+')[0]`, then dot-split with per-component
`int(p) if p.isdigit() else 0` defaulting. -/
def parse_version_parts (version : PyStr) : Nat × Nat × Nat :=
  let clean_version := upToFirst '+' (upToFirst '-' version)
  let parts := splitOn '.' clean_version
  let comp := fun i =>
    match parts.get? i with
    | some p => if pyIsDigit p then readNat p else 0
    | none => 0
  (comp 0, comp 1, comp 2)

/-- The `bump_version` function of `versioning.py`. -/
def bump_version (current_version bump_type : PyStr) : PyStr :=
  let p := parse_version_parts current_version
  if bump_type = pys "major" then natDigits (p.1 + 1) ++ pys ".0.0"
  else if bump_type = pys "minor" then
    natDigits p.1 ++ '.' :: natDigits (p.2.1 + 1) ++ pys ".0"
  else natDigits p.1 ++ '.' :: natDigits p.2.1 ++ '.' :: natDigits (p.2.2 + 1)

/-- A character a semver prerelease/build identifier may contain
(`[0-9a-zA-Z-]`). -/
def isIdentChar (c : Char) : Bool := isDigitChar c || isAlphaChar c || c = '-'

/-- The numeric-identifier alternative of the semver regex:
`0|[1-9]\d*` (no leading zero). -/
def numericIdB : PyStr → Bool
  | [] => false
  | c :: t => (c = '0' && t.isEmpty) ||
      (('1' ≤ c && c ≤ '9') && t.all isDigitChar)

/-- A prerelease identifier of the semver regex:
`0|[1-9]\d*|\d*[a-zA-Z-][0-9a-zA-Z-]*`, i.e. either a no-leading-zero
number or a nonempty `[0-9a-zA-Z-]` word containing a non-digit. -/
def preIdB (l : PyStr) : Bool :=
  numericIdB l ||
    (!l.isEmpty && l.all isIdentChar && l.any fun c => !isDigitChar c)

/-- A build identifier of the semver regex: `[0-9a-zA-Z-]+`. -/
def buildIdB (l : PyStr) : Bool := !l.isEmpty && l.all isIdentChar

/-- The full semantic-version grammar
`MAJOR.MINOR.PATCH[-PRERELEASE][+BUILD]` — a direct matcher for the regex
used by `is_valid_version` (without the surrounding `strip`), which is also
the grammar of the specification. -/
def semverMatch (s : PyStr) : Bool :=
  let beforePlus := splitFirstRest '+' s
  let beforeDash := splitFirstRest '-' beforePlus.1
  let coreOK :=
    match splitOn '.' beforeDash.1 with
    | [a, b, c] => numericIdB a && numericIdB b && numericIdB c
    | _ => false
  let preOK :=
    match beforeDash.2 with
    | none => true
    | some p => (splitOn '.' p).all preIdB
  let buildOK :=
    match beforePlus.2 with
    | none => true
    | some b => (splitOn '.' b).all buildIdB
  coreOK && preOK && buildOK

/-- The `is_valid_version` function of `versioning.py`:
`re.match(pattern, version.strip())` against the full semver pattern.
(The `not isinstance(version, str)` arm cannot arise in the embedding.) -/
def is_valid_version (version : PyStr) : Bool := semverMatch (pyStrip version)

/-! ## MD5 (hashlib.md5), used by models.py for prompt_hash -/

/-- Hex digit character (lowercase), for `n < 16`. -/
def hexDigit : Nat → Char
  | 0 => '0' | 1 => '1' | 2 => '2' | 3 => '3' | 4 => '4'
  | 5 => '5' | 6 => '6' | 7 => '7' | 8 => '8' | 9 => '9'
  | 10 => 'a' | 11 => 'b' | 12 => 'c' | 13 => 'd' | 14 => 'e' | 15 => 'f'
  | _ => '0'

/-- Two lowercase hex characters for one byte. -/
def hexByte (b : Nat) : PyStr := [hexDigit (b / 16 % 16), hexDigit (b % 16)]

/-- UTF-8 encoding of one character (Python `str.encode()`). -/
def utf8Char (c : Char) : List Nat :=
  let n := c.toNat
  if n < 0x80 then [n]
  else if n < 0x800 then [0xC0 ||| (n >>> 6), 0x80 ||| (n &&& 0x3F)]
  else if n < 0x10000 then
    [0xE0 ||| (n >>> 12), 0x80 ||| ((n >>> 6) &&& 0x3F), 0x80 ||| (n &&& 0x3F)]
  else
    [0xF0 ||| (n >>> 18), 0x80 ||| ((n >>> 12) &&& 0x3F),
     0x80 ||| ((n >>> 6) &&& 0x3F), 0x80 ||| (n &&& 0x3F)]

/-- UTF-8 encoding of a string as a byte list. -/
def utf8Encode (s : PyStr) : List Nat := (s.map utf8Char).join

/-- The 64 MD5 sine-derived constants (RFC 1321 T table). -/
def md5K : List Nat :=
  [0xd76aa478, 0xe8c7b756, 0x242070db, 0xc1bdceee,
   0xf57c0faf, 0x4787c62a, 0xa8304613, 0xfd469501,
   0x698098d8, 0x8b44f7af, 0xffff5bb1, 0x895cd7be,
   0x6b901122, 0xfd987193, 0xa679438e, 0x49b40821,
   0xf61e2562, 0xc040b340, 0x265e5a51, 0xe9b6c7aa,
   0xd62f105d, 0x02441453, 0xd8a1e681, 0xe7d3fbc8,
   0x21e1cde6, 0xc33707d6, 0xf4d50d87, 0x455a14ed,
   0xa9e3e905, 0xfcefa3f8, 0x676f02d9, 0x8d2a4c8a,
   0xfffa3942, 0x8771f681, 0x6d9d6122, 0xfde5380c,
   0xa4beea44, 0x4bdecfa9, 0xf6bb4b60, 0xbebfbc70,
   0x289b7ec6, 0xeaa127fa, 0xd4ef3085, 0x04881d05,
   0xd9d4d039, 0xe6db99e5, 0x1fa27cf8, 0xc4ac5665,
   0xf4292244, 0x432aff97, 0xab9423a7, 0xfc93a039,
   0x655b59c3, 0x8f0ccc92, 0xffeff47d, 0x85845dd1,
   0x6fa87e4f, 0xfe2ce6e0, 0xa3014314, 0x4e0811a1,
   0xf7537e82, 0xbd3af235, 0x2ad7d2bb, 0xeb86d391]

/-- The 64 MD5 per-round left-rotation amounts. -/
def md5S : List Nat :=
  [7, 12, 17, 22, 7, 12, 17, 22, 7, 12, 17, 22, 7, 12, 17, 22,
   5, 9, 14, 20, 5, 9, 14, 20, 5, 9, 14, 20, 5, 9, 14, 20,
   4, 11, 16, 23, 4, 11, 16, 23, 4, 11, 16, 23, 4, 11, 16, 23,
   6, 10, 15, 21, 6, 10, 15, 21, 6, 10, 15, 21, 6, 10, 15, 21]

/-- 32-bit left rotation on a value below 2^32. -/
def rotl32 (x s : Nat) : Nat :=
  (((x <<< s) % 4294967296) ||| (x >>> (32 - s)))

/-- The MD5 message-word index for step `i`. -/
def md5G (i : Nat) : Nat :=
  if i < 16 then i
  else if i < 32 then (5 * i + 1) % 16
  else if i < 48 then (3 * i + 5) % 16
  else (7 * i) % 16

/-- The MD5 nonlinear function for step `i`. -/
def md5F (i b c d : Nat) : Nat :=
  if i < 16 then (b &&& c) ||| ((b ^^^ 0xffffffff) &&& d)
  else if i < 32 then (d &&& b) ||| ((d ^^^ 0xffffffff) &&& c)
  else if i < 48 then b ^^^ c ^^^ d
  else c ^^^ (b ||| (d ^^^ 0xffffffff))

/-- Running state of the MD5 compression function. -/
structure MD5State where
  a : Nat
  b : Nat
  c : Nat
  d : Nat

/-- One MD5 step on a 16-word block `M`. -/
def md5Step (M : Nat → Nat) (st : MD5State) (i : Nat) : MD5State :=
  let f := (md5F i st.b st.c st.d + st.a + md5K.getD i 0 + M (md5G i)) % 4294967296
  ⟨st.d, (st.b + rotl32 f (md5S.getD i 0)) % 4294967296, st.b, st.c⟩

/-- Little-endian word `j` of a 64-byte block. -/
def md5Word (block : List Nat) (j : Nat) : Nat :=
  block.getD (4 * j) 0 + 256 * block.getD (4 * j + 1) 0 +
    65536 * block.getD (4 * j + 2) 0 + 16777216 * block.getD (4 * j + 3) 0

/-- MD5 compression of one 64-byte block. -/
def md5Block (st : MD5State) (block : List Nat) : MD5State :=
  let r := (List.range 64).foldl (md5Step (md5Word block)) st
  ⟨(st.a + r.a) % 4294967296, (st.b + r.b) % 4294967296,
   (st.c + r.c) % 4294967296, (st.d + r.d) % 4294967296⟩

/-- Little-endian byte rendering of a 32-bit (resp. 64-bit) value. -/
def le4 (n : Nat) : List Nat :=
  [n % 256, n / 256 % 256, n / 65536 % 256, n / 16777216 % 256]

/-- Little-endian 8-byte rendering of a 64-bit value. -/
def le8 (n : Nat) : List Nat :=
  le4 (n % 4294967296) ++ le4 (n / 4294967296)

/-- MD5 padding: `0x80`, zeros to 56 mod 64, then the 64-bit bit length. -/
def md5Pad (msg : List Nat) : List Nat :=
  let len := msg.length
  msg ++ 0x80 :: List.replicate ((119 - len % 64) % 64) 0 ++
    le8 (len * 8 % 18446744073709551616)

/-- Fuel-driven 64-byte chunking (structural recursion so the kernel can
evaluate it; the fuel is always sufficient at the call site). -/
def chunks64F : Nat → List Nat → List (List Nat)
  | 0, _ => []
  | fuel + 1, l =>
    if l.isEmpty then [] else l.take 64 :: chunks64F fuel (l.drop 64)

/-- Split a byte list into 64-byte chunks. -/
def chunks64 (l : List Nat) : List (List Nat) := chunks64F l.length l

/-- The MD5 digest of a byte list, as 16 bytes. -/
def md5Bytes (msg : List Nat) : List Nat :=
  let st0 : MD5State := ⟨0x67452301, 0xefcdab89, 0x98badcfe, 0x10325476⟩
  let fin := (chunks64 (md5Pad msg)).foldl md5Block st0
  le4 fin.a ++ le4 fin.b ++ le4 fin.c ++ le4 fin.d

/-- The lowercase hex digest of MD5 (Python `hashlib.md5(x).hexdigest()`). -/
def md5HexDigest (msg : List Nat) : PyStr := ((md5Bytes msg).map hexByte).join

/-- The prompt hash of models.py:
`hashlib.md5(prompt.encode()).hexdigest()[:8]`. -/
def md5Hex8 (s : PyStr) : PyStr := (md5HexDigest (utf8Encode s)).take 8

/-! ## datetime (stdlib), as used by models.py -/

/-- Length of a Gregorian month, as CPython's `datetime` validates days
(`days_in_month`, with the leap-year rule). -/
def daysInMonth (year month : Nat) : Nat :=
  if month = 2 then
    (if year % 4 = 0 && (year % 100 ≠ 0 || year % 400 = 0) then 29 else 28)
  else if month = 4 ∨ month = 6 ∨ month = 9 ∨ month = 11 then 30
  else 31

/-- A wall-clock timestamp, as `datetime.datetime` stores it.  The `valid`
field carries exactly the range constraints CPython enforces on
construction (MINYEAR..MAXYEAR, month 1..12, day within the month, time
components in range), so every model value is a constructible CPython
datetime and vice versa. -/
structure Datetime where
  year : Nat
  month : Nat
  day : Nat
  hour : Nat
  minute : Nat
  second : Nat
  microsecond : Nat
  valid : 1 ≤ year ∧ year ≤ 9999 ∧ 1 ≤ month ∧ month ≤ 12 ∧
    1 ≤ day ∧ day ≤ daysInMonth year month ∧
    hour ≤ 23 ∧ minute ≤ 59 ∧ second ≤ 59 ∧ microsecond ≤ 999999

/-- Zero-pad a digit string on the left to width `w`. -/
def padZeros (w : Nat) (l : PyStr) : PyStr := List.replicate (w - l.length) '0' ++ l

/-- Zero-padded decimal rendering of a natural number. -/
def padNat (w n : Nat) : PyStr := padZeros w (natDigits n)

/-- Python `datetime.isoformat()`:
`YYYY-MM-DDTHH:MM:SS[.ffffff]`, microseconds omitted when zero. -/
def Datetime.isoformat (d : Datetime) : PyStr :=
  (padNat 4 d.year ++ ('-' :: (padNat 2 d.month ++ ('-' :: padNat 2 d.day)))) ++
    ('T' :: (padNat 2 d.hour ++ (':' :: (padNat 2 d.minute ++ (':' ::
      (padNat 2 d.second ++
        (if d.microsecond = 0 then [] else '.' :: padNat 6 d.microsecond)))))))

/-- Python `datetime.strftime('%Y%m%d_%H%M%S')`. -/
def Datetime.strftimeCompact (d : Datetime) : PyStr :=
  padNat 4 d.year ++ padNat 2 d.month ++ padNat 2 d.day ++ '_' ::
    (padNat 2 d.hour ++ padNat 2 d.minute ++ padNat 2 d.second)

/-- The Python exception classes the embedded code can raise. -/
inductive PyErr
  | keyError
  | valueError
  | typeError
  | attributeError
deriving DecidableEq, Repr

/-- Read a zero-padded fixed-width decimal component of an ISO timestamp:
CPython's `fromisoformat` rejects unpadded components such as
`2024-1-2T3:4:5` with ValueError. -/
def readNatWidth (w : Nat) (l : PyStr) : Except PyErr Nat :=
  if l.length = w ∧ pyIsDigit l = true then Except.ok (readNat l)
  else Except.error PyErr.valueError

/-- Read a fractional-seconds field as microseconds: any nonempty digit
run, scaled (or truncated) to six digits, as CPython 3.11 does
(`.123` means 123000 microseconds, `.1234567` truncates to 123456). -/
def readNatFraction (l : PyStr) : Except PyErr Nat :=
  if pyIsDigit l then Except.ok (readNat (l.take 6) * 10 ^ (6 - l.length))
  else Except.error PyErr.valueError

/-- Python `datetime.fromisoformat` on the timestamp layout the program
itself writes: a `T`-separated, dash/colon-delimited, zero-padded
`YYYY-MM-DDTHH:MM:SS[.ffffff]` string.  Components must have their exact
padded widths and pass CPython's range validation (year 1..9999, month
1..12, day within the month, hour ≤ 23, minute/second ≤ 59) — anything
else raises ValueError exactly as CPython does (`2024-13-01T00:00:00`,
`2024-1-2T3:4:5`, `2024-02-30T00:00:00` all fail).  CPython 3.11 also
accepts further ISO-8601 layouts (date-only, space separator, timezone
suffixes) that this model conservatively rejects; the program never
writes them, and no theorem asserts anything about such strings. -/
def fromisoformat (s : PyStr) : Except PyErr Datetime :=
  match splitOn 'T' s with
  | [dateS, timeS] =>
    (match splitOn '-' dateS, splitOn ':' timeS with
     | [y, mo, da], [h, mi, secS] => do
       let yn ← readNatWidth 4 y
       let mon ← readNatWidth 2 mo
       let dn ← readNatWidth 2 da
       let hn ← readNatWidth 2 h
       let minn ← readNatWidth 2 mi
       let sus ←
         (match splitOn '.' secS with
          | [ss] => do
            let sn ← readNatWidth 2 ss
            Except.ok (sn, 0)
          | [ss, fs] => do
            let sn ← readNatWidth 2 ss
            let un ← readNatFraction fs
            Except.ok (sn, un)
          | _ => Except.error PyErr.valueError)
       if hv : 1 ≤ yn ∧ yn ≤ 9999 ∧ 1 ≤ mon ∧ mon ≤ 12 ∧
           1 ≤ dn ∧ dn ≤ daysInMonth yn mon ∧
           hn ≤ 23 ∧ minn ≤ 59 ∧ sus.1 ≤ 59 ∧ sus.2 ≤ 999999 then
         Except.ok ⟨yn, mon, dn, hn, minn, sus.1, sus.2, hv⟩
       else Except.error PyErr.valueError
     | _, _ => Except.error PyErr.valueError)
  | _ => Except.error PyErr.valueError

/-! ## models.py -/

/-- A Python/JSON value, for record payloads (`inputs`, `output`, ...).
Python floats are carried as rationals; no claim computes with them. -/
inductive PyVal
  | none
  | bool (b : Bool)
  | int (n : Int)
  | float (q : ℚ)
  | str (s : PyStr)
  | list (xs : List PyVal)
  | dict (xs : List (PyStr × PyVal))

/-- Python `x or default` for strings (the empty string is falsy). -/
def pyOrStr (v : Option PyStr) (d : PyStr) : PyStr :=
  match v with
  | Option.none => d
  | some s => if s.isEmpty then d else s

/-- The `PromptVersion` entity of models.py.  Field values are the
well-typed ones every reachable construction produces. -/
structure PromptVersion where
  prompt : PyStr
  version : PyStr
  function_name : PyStr
  description : PyStr
  tags : List PyStr
  created_at : Datetime
  prompt_hash : PyStr
  inputs : List (PyStr × PyVal)
  output : PyVal
  execution_time : Option ℚ
  execution_id : PyStr

/-- The `PromptVersion.__init__` constructor.  `now` stands for
`datetime.now()`, consulted only when `created_at` is absent.  The
`or`-defaults follow Python truthiness (`description or ""`,
`tags or []`, `inputs or {}`, `execution_id or <derived>`). -/
def PromptVersion.init (now : Datetime) (prompt version function_name : PyStr)
    (description : Option PyStr) (tags : Option (List PyStr))
    (created_at : Option Datetime) (inputs : Option (List (PyStr × PyVal)))
    (output : PyVal) (execution_time : Option ℚ)
    (execution_id : Option PyStr) : PromptVersion :=
  let createdAt := created_at.getD now
  let promptHash := md5Hex8 prompt
  { prompt := prompt
    version := version
    function_name := function_name
    description := pyOrStr description []
    tags := tags.getD []
    created_at := createdAt
    prompt_hash := promptHash
    inputs := inputs.getD []
    output := output
    execution_time := execution_time
    execution_id := pyOrStr execution_id
      (createdAt.strftimeCompact ++ '_' :: promptHash) }

/-- The `PromptVersion.to_dict` serializer, entries in source order. -/
def PromptVersion.to_dict (pv : PromptVersion) : List (PyStr × PyVal) :=
  [(pys "prompt", PyVal.str pv.prompt),
   (pys "version", PyVal.str pv.version),
   (pys "function_name", PyVal.str pv.function_name),
   (pys "description", PyVal.str pv.description),
   (pys "tags", PyVal.list (pv.tags.map PyVal.str)),
   (pys "created_at", PyVal.str pv.created_at.isoformat),
   (pys "prompt_hash", PyVal.str pv.prompt_hash),
   (pys "inputs", PyVal.dict pv.inputs),
   (pys "output", pv.output),
   (pys "execution_time",
     match pv.execution_time with
     | some q => PyVal.float q
     | Option.none => PyVal.none),
   (pys "execution_id", PyVal.str pv.execution_id)]

/-- Python `dict.get(key)` on an association list. -/
def dictGet : List (PyStr × PyVal) → PyStr → Option PyVal
  | [], _ => Option.none
  | (k, v) :: t, key => if k = key then some v else dictGet t key

/-- Python `dict[key]`: KeyError when absent. -/
def dictGetItem (d : List (PyStr × PyVal)) (key : PyStr) : Except PyErr PyVal :=
  match dictGet d key with
  | some v => Except.ok v
  | Option.none => Except.error PyErr.keyError

/-- Effectful map over a list in the Except monad, first error wins (the
order Python evaluates comprehensions and `max` keys). -/
def exceptMapM (f : α → Except PyErr β) : List α → Except PyErr (List β)
  | [] => Except.ok []
  | x :: xs => do
    let y ← f x
    let ys ← exceptMapM f xs
    Except.ok (y :: ys)

/-- Expect a string payload value. -/
def asStr : PyVal → Except PyErr PyStr
  | PyVal.str s => Except.ok s
  | _ => Except.error PyErr.typeError

/-- Expect a list-of-strings payload value. -/
def asStrList : PyVal → Except PyErr (List PyStr)
  | PyVal.list xs => exceptMapM asStr xs
  | _ => Except.error PyErr.typeError

/-- The `PromptVersion.from_dict` deserializer.  Python evaluates the
constructor arguments in order: the required keys (`prompt`, `version`,
`function_name`, `created_at`) raise KeyError when absent,
`datetime.fromisoformat` raises TypeError on a non-string and ValueError
on an ill-formed string, and `prompt.encode()` inside `__init__` raises
AttributeError on a non-string prompt.  Where CPython would silently store
an ill-typed payload (e.g. a numeric `version`), the model instead
restricts persisted records to well-typed field values (TypeError); no
claim exercises such payloads. -/
def PromptVersion.from_dict (now : Datetime) (data : List (PyStr × PyVal)) :
    Except PyErr PromptVersion := do
  let promptV ← dictGetItem data (pys "prompt")
  let versionV ← dictGetItem data (pys "version")
  let fnV ← dictGetItem data (pys "function_name")
  let descV := dictGet data (pys "description")
  let tagsV := (dictGet data (pys "tags")).getD (PyVal.list [])
  let createdV ← dictGetItem data (pys "created_at")
  let createdS ←
    (match createdV with
     | PyVal.str s => Except.ok s
     | _ => Except.error PyErr.typeError)
  let created ← fromisoformat createdS
  let inputsV := (dictGet data (pys "inputs")).getD (PyVal.dict [])
  let outputV := (dictGet data (pys "output")).getD PyVal.none
  let etV := (dictGet data (pys "execution_time")).getD PyVal.none
  let eidV := (dictGet data (pys "execution_id")).getD PyVal.none
  let prompt ←
    (match promptV with
     | PyVal.str s => Except.ok s
     | _ => Except.error PyErr.attributeError)
  let version ← asStr versionV
  let fn ← asStr fnV
  let desc ←
    (match descV with
     | Option.none => Except.ok Option.none
     | some (PyVal.str s) => Except.ok (some s)
     | some PyVal.none => Except.ok Option.none
     | some _ => Except.error PyErr.typeError)
  let tags ← asStrList tagsV
  let inputs ←
    (match inputsV with
     | PyVal.dict xs => Except.ok xs
     | _ => Except.error PyErr.typeError)
  let et ←
    (match etV with
     | PyVal.none => Except.ok Option.none
     | PyVal.float q => Except.ok (some q)
     | _ => Except.error PyErr.typeError)
  let eid ←
    (match eidV with
     | PyVal.none => Except.ok Option.none
     | PyVal.str s => Except.ok (some s)
     | _ => Except.error PyErr.typeError)
  Except.ok (PromptVersion.init now prompt version fn desc (some tags)
    (some created) (some inputs) outputV et eid)

/-- `PromptVersion.from_dict` applied to an arbitrary JSON value, as the
storage loop does: subscripting a non-object raises TypeError. -/
def PromptVersion.from_dictV (now : Datetime) (v : PyVal) :
    Except PyErr PromptVersion :=
  match v with
  | PyVal.dict data => PromptVersion.from_dict now data
  | _ => Except.error PyErr.typeError

/-! ## storage.py -/

/-- The in-memory prompt index `self.prompts`: an insertion-ordered mapping
from composite string key to record, as a Python dict holds it. -/
abbrev Index := List (PyStr × PromptVersion)

/-- Python `d[k] = v` on an insertion-ordered dict: replace in place or
append. -/
def indexInsert : Index → PyStr → PromptVersion → Index
  | [], k, v => [(k, v)]
  | (k0, v0) :: t, k, v =>
    if k0 = k then (k0, v) :: t else (k0, v0) :: indexInsert t k v

/-- Python `d.get(k)` on the index. -/
def indexGet : Index → PyStr → Option PromptVersion
  | [], _ => Option.none
  | (k0, v0) :: t, k => if k0 = k then some v0 else indexGet t k

/-- Python `d.values()` on the index. -/
def indexValues (m : Index) : List PromptVersion := m.map Prod.snd

/-- Attribute access `str(getattr(pv, name))` on a models.PromptVersion
instance, for the string-valued attributes its `__init__` defines; any
name outside the attribute set raises AttributeError.  In particular
`project_version` and `agent_version`, which storage.py reads, are not
among `prompt, version, function_name, description, tags, created_at,
prompt_hash, inputs, output, execution_time, execution_id`.  (The five non-string
attributes of that set are never interpolated by the source, so they are
omitted from this string view.) -/
def PromptVersion.attrStr (pv : PromptVersion) (name : PyStr) : Except PyErr PyStr :=
  if name = pys "prompt" then Except.ok pv.prompt
  else if name = pys "version" then Except.ok pv.version
  else if name = pys "function_name" then Except.ok pv.function_name
  else if name = pys "description" then Except.ok pv.description
  else if name = pys "prompt_hash" then Except.ok pv.prompt_hash
  else if name = pys "execution_id" then Except.ok pv.execution_id
  else Except.error PyErr.attributeError

/-- The `PromptStorage.add_prompt` operation:
`key = f"{pv.function_name}_{pv.project_version}_{pv.agent_version}"`,
then `self.prompts[key] = pv` and `self._save_prompts()` (the file writes
do not affect the in-memory index and are not modelled). -/
def add_prompt (store : Index) (pv : PromptVersion) : Except PyErr Index := do
  let fn ← pv.attrStr (pys "function_name")
  let proj ← pv.attrStr (pys "project_version")
  let agent ← pv.attrStr (pys "agent_version")
  let key := fn ++ '_' :: (proj ++ '_' :: agent)
  Except.ok (indexInsert store key pv)

/-- The `PromptStorage.get_prompt_by_combined_version` lookup:
`self.prompts.get(f"{function_name}_{version}")`. -/
def get_prompt_by_combined_version (store : Index)
    (function_name version : PyStr) : Option PromptVersion :=
  indexGet store (function_name ++ '_' :: version)

/-- Python tuple comparison on parsed version triples (lexicographic). -/
def tupleLt (x y : Nat × Nat × Nat) : Bool :=
  decide (x.1 < y.1) ||
    (decide (x.1 = y.1) &&
      (decide (x.2.1 < y.2.1) ||
        (decide (x.2.1 = y.2.1) && decide (x.2.2 < y.2.2))))

/-- Python `max(items, key=...)` once the keys are known: the first element
with a maximal key. -/
def pickMaxAux (acc : PromptVersion × (Nat × Nat × Nat)) :
    List (PromptVersion × (Nat × Nat × Nat)) → PromptVersion
  | [] => acc.1
  | p :: t => if tupleLt acc.2 p.2 then pickMaxAux p t else pickMaxAux acc t

/-- The `PromptStorage.get_latest_version` query (latest by
`x.agent_version`).  Python's `max` evaluates the key on each element;
for a models.PromptVersion the very first evaluation raises
AttributeError, so the numeric selection below it is unreachable (the
attribute string is read back as a number, as the int attribute the key
expects would compare). -/
def get_latest_version (store : Index) (function_name : PyStr) :
    Except PyErr (Option PromptVersion) :=
  let versions := (indexValues store).filter
    fun pv => decide (pv.function_name = function_name)
  match versions with
  | [] => Except.ok Option.none
  | v :: vs => do
    let keys ← exceptMapM (fun pv =>
      (pv.attrStr (pys "agent_version")).map fun s => (readNat s, 0, 0)) (v :: vs)
    (match keys with
     | k :: ks => Except.ok (some (pickMaxAux (v, k) (vs.zip ks)))
     | [] => Except.ok Option.none)

/-- The `PromptStorage.get_latest_project_version` query (latest by parsed
`x.project_version`).  As with `get_latest_version`, the key raises
AttributeError on the first element whenever any record matches. -/
def get_latest_project_version (store : Index) (function_name : PyStr) :
    Except PyErr (Option PromptVersion) :=
  let versions := (indexValues store).filter
    fun pv => decide (pv.function_name = function_name)
  match versions with
  | [] => Except.ok Option.none
  | v :: vs => do
    let keys ← exceptMapM (fun pv =>
      (pv.attrStr (pys "project_version")).map parse_version_parts) (v :: vs)
    (match keys with
     | k :: ks => Except.ok (some (pickMaxAux (v, k) (vs.zip ks)))
     | [] => Except.ok Option.none)

/-- Contents of one persisted snapshot file: either syntactically invalid
JSON (json.load raises JSONDecodeError) or a parsed JSON value. -/
inductive FileContent
  | invalid
  | val (v : PyVal)

/-- The persisted state `_load_prompts` reads: the timestamped snapshot
files (newest first, as `list_timestamped_files` returns them sorted by
modification time) and the optional legacy `prompts.json`. -/
structure StorageFS where
  timestamped : List FileContent
  legacy : Option FileContent

/-- The `for k, v in data.items(): self.prompts[k] = PromptVersion.from_dict(v)`
loop: on an exception the entries loaded so far remain in the index. -/
def loadEntriesAux (now : Datetime) (acc : Index) :
    List (PyStr × PyVal) → Index × Option PyErr
  | [] => (acc, Option.none)
  | (k, v) :: rest =>
    match PromptVersion.from_dictV now v with
    | Except.ok pv => loadEntriesAux now (indexInsert acc k pv) rest
    | Except.error e => (acc, some e)

/-- Load one parsed JSON document into the index; `data.items()` on a
non-object raises AttributeError. -/
def loadData (now : Datetime) (acc : Index) (v : PyVal) : Index × Option PyErr :=
  match v with
  | PyVal.dict entries => loadEntriesAux now acc entries
  | _ => (acc, some PyErr.attributeError)

/-- Which in-loop exceptions the `except (json.JSONDecodeError, KeyError)`
clauses of `_load_prompts` catch: decode errors are the
`FileContent.invalid` case, so KeyError is the only in-loop one. -/
def caughtByLoad (e : PyErr) : Bool := decide (e = PyErr.keyError)

/-- The legacy-file phase of `_load_prompts`: on a caught exception the
index is reset to empty (`self.prompts = {}`); entries already loaded from
a partially-read timestamped file are otherwise kept and overwritten
key-by-key. -/
def loadLegacy (now : Datetime) (acc : Index) (legacy : Option FileContent) :
    Except PyErr Index :=
  match legacy with
  | Option.none => Except.ok acc
  | some FileContent.invalid => Except.ok []
  | some (FileContent.val v) =>
    match loadData now acc v with
    | (acc2, Option.none) => Except.ok acc2
    | (_, some e) => if caughtByLoad e then Except.ok [] else Except.error e

/-- The `PromptStorage._load_prompts` routine run at construction: read the
newest timestamped snapshot if any; on a caught failure fall back to the
legacy file; uncaught exceptions (AttributeError, ValueError, TypeError)
propagate out of the constructor. -/
def _load_prompts (now : Datetime) (fs : StorageFS) : Except PyErr Index :=
  match fs.timestamped with
  | [] => loadLegacy now [] fs.legacy
  | latest :: _ =>
    match latest with
    | FileContent.invalid => loadLegacy now [] fs.legacy
    | FileContent.val v =>
      match loadData now [] v with
      | (acc, Option.none) => Except.ok acc
      | (acc, some e) =>
        if caughtByLoad e then loadLegacy now acc fs.legacy
        else Except.error e

/-- A parsed snapshot document whose record entries each either
deserialize — including passing CPython's timestamp padding and range
validation in `fromisoformat` — or fail with a caught KeyError (missing
required field). -/
def benignVal (now : Datetime) : PyVal → Bool
  | PyVal.dict entries => entries.all fun kv =>
      match PromptVersion.from_dictV now kv.2 with
      | Except.ok _ => true
      | Except.error e => caughtByLoad e
  | _ => false

/-- A snapshot file `_load_prompts` recovers from: invalid JSON, or a
benign parsed document. -/
def benignFile (now : Datetime) : FileContent → Bool
  | FileContent.invalid => true
  | FileContent.val v => benignVal now v

/-- Directory states whose read files are all benign (only the newest
timestamped file is ever read). -/
def benignFS (now : Datetime) (fs : StorageFS) : Bool :=
  (match fs.timestamped with
   | [] => true
   | latest :: _ => benignFile now latest) &&
  (match fs.legacy with
   | Option.none => true
   | some f => benignFile now f)

/-! ## decorators/chorus.py -/

/-- Outcome of one tracked call: a normal return, the wrapped function's
own exception re-raised, or an internal Python error; each carries the
in-memory index as it stands when the wrapper exits. -/
inductive WrapperOutcome
  | ret (output : PyVal) (store : Index)
  | userError (e : PyStr) (store : Index)
  | pyError (e : PyErr) (store : Index)

/-- The execution-and-recording part of the `chorus` decorator's `wrapper`
(from `current_version = storage.get_latest_version(...)` on).  Prompt
extraction, argument binding and timing are the spec's external
collaborators: `formatted_prompt`, `args`, `now` and `elapsed` carry their
results; `funcResult` is the wrapped call's return value or its raised
exception rendered by `str(e)`. -/
def chorusWrapperRun (versionArg : PyStr) (auto_version : Bool)
    (description : Option PyStr) (tags : Option (List PyStr))
    (store : Index) (func_name formatted_prompt : PyStr)
    (args : List (PyStr × PyVal)) (now : Datetime) (elapsed : Option ℚ)
    (funcResult : Except PyStr PyVal) : WrapperOutcome :=
  match get_latest_version store func_name with
  | Except.error e => WrapperOutcome.pyError e store
  | Except.ok current_version =>
    let new_version :=
      if versionArg = pys "auto" then
        match current_version with
        | some cv => bump_version cv.version
            (analyze_prompt_changes cv.prompt formatted_prompt)
        | Option.none => pys "1.0.0"
      else
        match current_version with
        | some cv =>
          if auto_version then
            if cv.prompt ≠ formatted_prompt then
              bump_version cv.version
                (analyze_prompt_changes cv.prompt formatted_prompt)
            else cv.version
          else versionArg
        | Option.none => versionArg
    match funcResult with
    | Except.error e =>
      -- output = f"ERROR: {str(e)}"; execution_success = False; raise —
      -- the raise exits the wrapper before the record is constructed or
      -- stored, so the assignments here are dead
      let _output := pys "ERROR: " ++ e
      WrapperOutcome.userError e store
    | Except.ok output =>
      let prompt_version := PromptVersion.init now formatted_prompt
        new_version func_name description tags Option.none (some args)
        output elapsed Option.none
      match add_prompt store prompt_version with
      | Except.ok store2 => WrapperOutcome.ret output store2
      | Except.error e2 => WrapperOutcome.pyError e2 store

/-! ## Rendered version strings and concrete fixtures -/

/-- A canonically rendered version core `MAJOR.MINOR.PATCH`. -/
def verCore (ma mi pa : Nat) : PyStr :=
  natDigits ma ++ ('.' :: (natDigits mi ++ ('.' :: natDigits pa)))

/-- A version-string tail that `parse_version_parts` strips: empty, or
starting with the prerelease dash or the build plus. -/
def metaSuffix (s : PyStr) : Prop :=
  s = [] ∨ (∃ r, s = '-' :: r) ∨ (∃ r, s = '+' :: r)

/-- A fixed timestamp standing in for `datetime.now()` in witnesses. -/
def dt0 : Datetime := ⟨2024, 1, 2, 3, 4, 5, 0, by decide⟩

/-- A concrete well-typed record for witnesses. -/
def pvW : PromptVersion :=
  ⟨pys "p", pys "1.0.0", pys "f", pys "", [], dt0, pys "deadbeef", [],
   PyVal.none, Option.none, pys "e"⟩

/-- A well-formed persisted record document. -/
def recGood : PyVal :=
  PyVal.dict [(pys "prompt", PyVal.str (pys "p")),
    (pys "version", PyVal.str (pys "1.0.0")),
    (pys "function_name", PyVal.str (pys "f")),
    (pys "created_at", PyVal.str (pys "2024-01-02T03:04:05"))]

/-- A persisted record document missing the required `prompt` field. -/
def recMissing : PyVal := PyVal.dict [(pys "version", PyVal.str (pys "1.0.0"))]

/-- A persisted record document whose `created_at` is not a timestamp. -/
def recBadDate : PyVal :=
  PyVal.dict [(pys "prompt", PyVal.str (pys "p")),
    (pys "version", PyVal.str (pys "1.0.0")),
    (pys "function_name", PyVal.str (pys "f")),
    (pys "created_at", PyVal.str (pys "oops"))]

/-- A benign directory state: an unreadable newest timestamped snapshot
plus a legacy file with one good record and one missing-field record. -/
def fsBenign : StorageFS :=
  ⟨[FileContent.invalid],
   some (FileContent.val (PyVal.dict [(pys "k", recGood), (pys "k2", recMissing)]))⟩

/-- A directory state with a well-parsed newest snapshot holding a record
whose `created_at` cannot be parsed. -/
def fsBadDate : StorageFS :=
  ⟨[FileContent.val (PyVal.dict [(pys "k", recBadDate)])], Option.none⟩

/-- The appended sentence of the C9 scenario. -/
def featSuffix : PyStr := pys " Also supports new optional retries."

/-- Its normalized form with the joining space. -/
def featSuffixNorm : PyStr := pys " also supports new optional retries."

/-- Its normalized form when the old prompt is blank. -/
def featSuffixCore : PyStr := pys "also supports new optional retries."

/-- A concrete old prompt on which no major condition fires. -/
def oldPromptW : PyStr :=
  pys "Summarize the provided text carefully. Keep the answer short. Use bullet points."

/-! ## Helper lemmas: digits and decimal rendering -/

theorem digitVal_digitChar (n : Nat) (h : n < 10) : digitVal (digitChar n) = n := by
  interval_cases n <;> rfl

theorem isDigitChar_digitChar (n : Nat) (h : n < 10) :
    isDigitChar (digitChar n) = true := by
  interval_cases n <;> rfl

theorem natDigitsF_all_digits :
    ∀ fuel n, ∀ c ∈ natDigitsF fuel n, isDigitChar c = true := by
  intro fuel
  induction fuel with
  | zero => intro n c hc; simp [natDigitsF] at hc
  | succ f ih =>
    intro n c hc
    simp only [natDigitsF] at hc
    split_ifs at hc with h
    · simp at hc
      subst hc
      exact isDigitChar_digitChar n h
    · rcases List.mem_append.mp hc with h1 | h1
      · exact ih (n / 10) c h1
      · simp at h1
        subst h1
        exact isDigitChar_digitChar _ (Nat.mod_lt n (by omega))

theorem natDigits_all_digits (n : Nat) : ∀ c ∈ natDigits n, isDigitChar c = true :=
  natDigitsF_all_digits (n + 1) n

theorem readNat_append_singleton (a : PyStr) (c : Char) :
    readNat (a ++ [c]) = 10 * readNat a + digitVal c := by
  simp [readNat, List.foldl_append]

theorem readNat_natDigitsF : ∀ fuel n, n < fuel → readNat (natDigitsF fuel n) = n := by
  intro fuel
  induction fuel with
  | zero => omega
  | succ f ih =>
    intro n hn
    simp only [natDigitsF]
    split_ifs with h
    · show 10 * 0 + digitVal (digitChar n) = n
      rw [digitVal_digitChar n h]
      omega
    · rw [readNat_append_singleton, ih (n / 10) (by omega),
        digitVal_digitChar _ (by omega)]
      omega

theorem readNat_natDigits (n : Nat) : readNat (natDigits n) = n :=
  readNat_natDigitsF (n + 1) n (by omega)

theorem natDigits_ne_nil (n : Nat) : natDigits n ≠ [] := by
  unfold natDigits natDigitsF
  split_ifs <;> simp

theorem pyIsDigit_natDigits (n : Nat) : pyIsDigit (natDigits n) = true := by
  have h1 : (natDigits n).isEmpty = false := by
    simp [List.isEmpty_iff, natDigits_ne_nil n]
  simp [pyIsDigit, h1, List.all_eq_true]
  exact natDigits_all_digits n

theorem readNat_cons_zero (l : PyStr) : readNat ('0' :: l) = readNat l := rfl

theorem readNat_replicate_zero (k : Nat) (l : PyStr) :
    readNat (List.replicate k '0' ++ l) = readNat l := by
  induction k with
  | zero => simp
  | succ k ih => simpa [List.replicate_succ, readNat_cons_zero] using ih

theorem padNat_all_digits (w n : Nat) : ∀ c ∈ padNat w n, isDigitChar c = true := by
  intro c hc
  rcases List.mem_append.mp hc with h1 | h1
  · rw [List.eq_of_mem_replicate h1]; rfl
  · exact natDigits_all_digits n c h1

theorem padNat_ne_nil (w n : Nat) : padNat w n ≠ [] := by
  simp [padNat, padZeros, natDigits_ne_nil n]

theorem pyIsDigit_padNat (w n : Nat) : pyIsDigit (padNat w n) = true := by
  have h1 : (padNat w n).isEmpty = false := by
    simp [List.isEmpty_iff, padNat_ne_nil w n]
  simp [pyIsDigit, h1, List.all_eq_true]
  exact padNat_all_digits w n

theorem readNat_padNat (w n : Nat) : readNat (padNat w n) = n := by
  show readNat (List.replicate (w - (natDigits n).length) '0' ++ natDigits n) = n
  rw [readNat_replicate_zero, readNat_natDigits]

theorem natDigitsF_length_le :
    ∀ fuel n w, n < 10 ^ w → 1 ≤ w → (natDigitsF fuel n).length ≤ w := by
  intro fuel
  induction fuel with
  | zero => intro n w _ _; simp [natDigitsF]
  | succ f ih =>
    intro n w hn hw
    simp only [natDigitsF]
    split_ifs with h
    · simpa using hw
    · rw [List.length_append]
      have hw2 : 2 ≤ w := by
        by_contra hc
        have hw1 : w = 1 := by omega
        subst hw1
        simp only [pow_one] at hn
        exact h hn
      have hpow : 10 ^ (w - 1) * 10 = 10 ^ w := by
        rw [← pow_succ]
        congr 1
        omega
      have hdiv : n / 10 < 10 ^ (w - 1) := by
        rw [Nat.div_lt_iff_lt_mul (by omega : 0 < 10), hpow]
        exact hn
      have hrec := ih (n / 10) (w - 1) hdiv (by omega)
      simp only [List.length_cons, List.length_nil]
      omega

theorem natDigits_length_le (n w : Nat) (h : n < 10 ^ w) (hw : 1 ≤ w) :
    (natDigits n).length ≤ w := natDigitsF_length_le (n + 1) n w h hw

theorem padNat_length (w n : Nat) (h : (natDigits n).length ≤ w) :
    (padNat w n).length = w := by
  show (List.replicate (w - (natDigits n).length) '0' ++ natDigits n).length = w
  rw [List.length_append, List.length_replicate]
  omega

theorem readNatWidth_padNat (w n : Nat) (h : (natDigits n).length ≤ w) :
    readNatWidth w (padNat w n) = Except.ok n := by
  unfold readNatWidth
  rw [if_pos ⟨padNat_length w n h, pyIsDigit_padNat w n⟩, readNat_padNat]

theorem daysInMonth_le_31 (y m : Nat) : daysInMonth y m ≤ 31 := by
  unfold daysInMonth
  split_ifs <;> omega

theorem readNatFraction_padNat (us : Nat) (h : us ≤ 999999) :
    readNatFraction (padNat 6 us) = Except.ok us := by
  have hl : (natDigits us).length ≤ 6 := natDigits_length_le us 6
    (by rw [show (10 : Nat) ^ 6 = 1000000 from by norm_num]; omega) (by norm_num)
  have hlen : (padNat 6 us).length = 6 := padNat_length 6 us hl
  have htake : (padNat 6 us).take 6 = padNat 6 us := by
    have h0 := List.take_length (padNat 6 us)
    rw [hlen] at h0
    exact h0
  unfold readNatFraction
  rw [if_pos (pyIsDigit_padNat 6 us), htake, hlen]
  simp [readNat_padNat]

/-! ## Helper lemmas: splitting -/

theorem splitOn_ne_nil (sep : Char) (l : PyStr) : splitOn sep l ≠ [] := by
  cases l with
  | nil => simp [splitOn]
  | cons c t =>
    simp only [splitOn]
    split_ifs
    · simp
    · cases h : splitOn sep t <;> simp

theorem splitOn_eq_single (sep : Char) (l : PyStr) (h : sep ∉ l) :
    splitOn sep l = [l] := by
  induction l with
  | nil => rfl
  | cons c t ih =>
    have hc : ¬ c = sep := fun e => h (e ▸ List.mem_cons_self c t)
    have ht : sep ∉ t := fun hm => h (List.mem_cons_of_mem _ hm)
    simp only [splitOn, if_neg hc, ih ht]

theorem splitOn_append_sep (sep : Char) (a b : PyStr) (ha : sep ∉ a) :
    splitOn sep (a ++ sep :: b) = a :: splitOn sep b := by
  induction a with
  | nil => simp [splitOn]
  | cons c t ih =>
    have hc : ¬ c = sep := fun e => ha (e ▸ List.mem_cons_self c t)
    have ht : sep ∉ t := fun hm => ha (List.mem_cons_of_mem _ hm)
    simp only [List.cons_append, splitOn, if_neg hc]
    rw [show splitOn sep (t.append (sep :: b)) = t :: splitOn sep b from ih ht]

theorem upToFirst_of_not_mem (sep : Char) (l : PyStr) (h : sep ∉ l) :
    upToFirst sep l = l := by
  simp [upToFirst, splitOn_eq_single sep l h]

theorem upToFirst_append_sep (sep : Char) (a b : PyStr) (ha : sep ∉ a) :
    upToFirst sep (a ++ sep :: b) = a := by
  simp [upToFirst, splitOn_append_sep sep a b ha]

theorem upToFirst_append (sep : Char) (a b : PyStr) (ha : sep ∉ a) :
    upToFirst sep (a ++ b) = a ++ upToFirst sep b := by
  induction a with
  | nil => simp
  | cons c t ih =>
    have hc : ¬ c = sep := fun e => ha (e ▸ List.mem_cons_self c t)
    have ht : sep ∉ t := fun hm => ha (List.mem_cons_of_mem _ hm)
    have hne := splitOn_ne_nil sep (t ++ b)
    cases hsp : splitOn sep (t ++ b) with
    | nil => exact absurd hsp hne
    | cons h0 r =>
      have ihv := ih ht
      simp only [upToFirst, hsp, List.headD_cons] at ihv
      simp only [List.cons_append, upToFirst, splitOn, if_neg hc]
      rw [show splitOn sep (t.append b) = h0 :: r from hsp]
      simp [ihv]

/-! ## Helper lemmas: parsing rendered version strings -/

theorem not_mem_natDigits (n : Nat) (c : Char) (hc : isDigitChar c = false) :
    c ∉ natDigits n := by
  intro hmem
  have := natDigits_all_digits n c hmem
  rw [hc] at this
  exact Bool.false_ne_true this

theorem not_mem_verCore (ma mi pa : Nat) (c : Char) (hc : isDigitChar c = false)
    (hdot : c ≠ '.') : c ∉ verCore ma mi pa := by
  intro hmem
  unfold verCore at hmem
  rcases List.mem_append.mp hmem with h | h
  · exact not_mem_natDigits ma c hc h
  rcases List.mem_cons.mp h with h | h
  · exact hdot h
  rcases List.mem_append.mp h with h | h
  · exact not_mem_natDigits mi c hc h
  rcases List.mem_cons.mp h with h | h
  · exact hdot h
  · exact not_mem_natDigits pa c hc h

theorem clean_version_core (ma mi pa : Nat) (s : PyStr) (hs : metaSuffix s) :
    upToFirst '+' (upToFirst '-' (verCore ma mi pa ++ s)) = verCore ma mi pa := by
  have hdash : '-' ∉ verCore ma mi pa := not_mem_verCore ma mi pa '-' rfl (by decide)
  have hplus : '+' ∉ verCore ma mi pa := not_mem_verCore ma mi pa '+' rfl (by decide)
  rw [upToFirst_append '-' _ s hdash]
  have hrest : upToFirst '+' (upToFirst '-' s) = [] := by
    rcases hs with h | ⟨r, h⟩ | ⟨r, h⟩ <;> subst h
    · rfl
    · rfl
    · have h2 : upToFirst '-' ('+' :: r) = '+' :: upToFirst '-' r := by
        have := upToFirst_append '-' ['+'] r (by decide)
        simpa using this
      rw [h2]
      rfl
  rw [upToFirst_append '+' _ _ hplus, hrest, List.append_nil]

theorem splitOn_dot_verCore (ma mi pa : Nat) :
    splitOn '.' (verCore ma mi pa) = [natDigits ma, natDigits mi, natDigits pa] := by
  have h1 : '.' ∉ natDigits ma := not_mem_natDigits ma '.' rfl
  have h2 : '.' ∉ natDigits mi := not_mem_natDigits mi '.' rfl
  have h3 : '.' ∉ natDigits pa := not_mem_natDigits pa '.' rfl
  unfold verCore
  rw [splitOn_append_sep '.' _ _ h1, splitOn_append_sep '.' _ _ h2,
    splitOn_eq_single '.' _ h3]

theorem parse_verCore (ma mi pa : Nat) (s : PyStr) (hs : metaSuffix s) :
    parse_version_parts (verCore ma mi pa ++ s) = (ma, mi, pa) := by
  have hclean := clean_version_core ma mi pa s hs
  have hsplit := splitOn_dot_verCore ma mi pa
  simp only [parse_version_parts, hclean, hsplit]
  simp [pyIsDigit_natDigits, readNat_natDigits]

theorem parse_natDigits (ma : Nat) :
    parse_version_parts (natDigits ma) = (ma, 0, 0) := by
  have hdash : '-' ∉ natDigits ma := not_mem_natDigits ma '-' rfl
  have hplus : '+' ∉ natDigits ma := not_mem_natDigits ma '+' rfl
  have hdot : '.' ∉ natDigits ma := not_mem_natDigits ma '.' rfl
  simp only [parse_version_parts, upToFirst_of_not_mem '-' _ hdash,
     upToFirst_of_not_mem '+' _ hplus, splitOn_eq_single '.' _ hdot]
  simp [pyIsDigit_natDigits, readNat_natDigits]

/-! ## Claim C5 and C6: parse and bump -/

/-- C5: `VersionCodec.parse` (the `parse_version_parts` function) is total —
it returns a triple of naturals for every input by construction — strips any
`-prerelease`/`+build` suffix, splits on dots, and treats missing or
non-numeric components as 0: it recovers the components of every rendered
`MAJOR.MINOR.PATCH` core under any stripped tail, reads a lone major
component with minor and patch defaulting to 0, and
`parse("2.x.3") = (2, 0, 3)`. -/
theorem parse_version_parts_spec :
    (∀ ma mi pa : Nat, ∀ s : PyStr, metaSuffix s →
      parse_version_parts (verCore ma mi pa ++ s) = (ma, mi, pa)) ∧
    (∀ ma : Nat, parse_version_parts (natDigits ma) = (ma, 0, 0)) ∧
    parse_version_parts (pys "2.x.3") = (2, 0, 3) :=
  ⟨parse_verCore, parse_natDigits, by decide⟩

/-- Witness for C5 at concrete inputs: the metaSuffix hypothesis discharged
on `1.0.0-alpha+001` and on the bare major `7`. -/
theorem parse_version_parts_spec_witness :
    parse_version_parts (pys "1.0.0-alpha+001") = (1, 0, 0) ∧
    parse_version_parts (pys "7") = (7, 0, 0) := by
  constructor
  · exact parse_version_parts_spec.1 1 0 0 (pys "-alpha+001")
      (Or.inr (Or.inl ⟨pys "alpha+001", rfl⟩))
  · exact parse_version_parts_spec.2.1 7

/-- C6: `bump_version` on any version string made of a rendered
`MAJOR.MINOR.PATCH` core plus stripped metadata tail: `major` gives
`{major+1}.0.0`, `minor` gives `{major}.{minor+1}.0`, and every other kind
(including `patch` and unrecognized kinds) gives
`{major}.{minor}.{patch+1}`; the metadata tail is dropped. -/
theorem bump_version_spec :
    ∀ ma mi pa : Nat, ∀ s : PyStr, metaSuffix s →
      bump_version (verCore ma mi pa ++ s) (pys "major") = verCore (ma + 1) 0 0 ∧
      bump_version (verCore ma mi pa ++ s) (pys "minor") = verCore ma (mi + 1) 0 ∧
      (∀ k : PyStr, k ≠ pys "major" → k ≠ pys "minor" →
        bump_version (verCore ma mi pa ++ s) k = verCore ma mi (pa + 1)) := by
  intro ma mi pa s hs
  have hp := parse_verCore ma mi pa s hs
  refine ⟨?_, ?_, ?_⟩
  · simp [bump_version, hp]
    rfl
  · simp [bump_version, hp]
    rw [if_neg (show ¬ pys "minor" = pys "major" by decide)]
    rfl
  · intro k hk1 hk2
    simp only [bump_version, hp]
    rw [if_neg hk1, if_neg hk2]
    unfold verCore
    simp [List.append_assoc]

/-- Witness for C6 at the claim's concrete inputs. -/
theorem bump_version_spec_witness :
    bump_version (pys "1.2.3") (pys "major") = pys "2.0.0" ∧
    bump_version (pys "1.2.3") (pys "minor") = pys "1.3.0" ∧
    bump_version (pys "1.2.3") (pys "patch") = pys "1.2.4" ∧
    bump_version (pys "1.2.3") (pys "junk") = pys "1.2.4" := by
  have h := bump_version_spec 1 2 3 [] (Or.inl rfl)
  exact ⟨h.1, h.2.1, h.2.2 (pys "patch") (by decide) (by decide),
    h.2.2 (pys "junk") (by decide) (by decide)⟩

/-! ## Helper lemmas: the semver matcher on rendered versions -/

theorem numericIdB_natDigitsF :
    ∀ fuel n, n < fuel → numericIdB (natDigitsF fuel n) = true := by
  intro fuel
  induction fuel with
  | zero => omega
  | succ f ih =>
    intro n hn
    simp only [natDigitsF]
    split_ifs with h
    · interval_cases n <;> rfl
    · have ih10 := ih (n / 10) (by omega)
      cases hrep : natDigitsF f (n / 10) with
      | nil => rw [hrep] at ih10; exact absurd ih10 (by decide)
      | cons c0 rest =>
        rw [hrep] at ih10
        have hval := readNat_natDigitsF f (n / 10) (by omega)
        rw [hrep] at hval
        rw [List.cons_append]
        by_cases h0 : c0 = '0'
        · exfalso
          subst h0
          cases rest with
          | nil =>
            have hz : readNat ['0'] = 0 := rfl
            rw [hz] at hval
            omega
          | cons r rs => simp [numericIdB] at ih10
        · simp only [numericIdB, Bool.or_eq_true, Bool.and_eq_true] at ih10 ⊢
          rcases ih10 with ⟨hc0, _⟩ | ⟨hb, hall⟩
          · exact absurd (of_decide_eq_true hc0) h0
          · right
            refine ⟨hb, ?_⟩
            rw [List.all_append]
            simp [hall, isDigitChar_digitChar _ (Nat.mod_lt n (by omega))]

theorem numericIdB_natDigits (n : Nat) : numericIdB (natDigits n) = true :=
  numericIdB_natDigitsF (n + 1) n (by omega)

theorem nonspace_of_digit_or_dot (c : Char)
    (h : isDigitChar c = true ∨ c = '.') : isSpaceChar c = false := by
  cases h with
  | inr h => subst h; rfl
  | inl h =>
    by_contra hsp
    have hsp2 : isSpaceChar c = true := by
      cases hb : isSpaceChar c
      · exact absurd hb hsp
      · rfl
    simp only [isSpaceChar, Bool.or_eq_true, decide_eq_true_eq] at hsp2
    rcases hsp2 with ((((h2 | h2) | h2) | h2) | h2) | h2 <;>
      (subst h2; exact absurd h (by decide))

theorem mem_verCore_digit_or_dot (ma mi pa : Nat) :
    ∀ c ∈ verCore ma mi pa, isDigitChar c = true ∨ c = '.' := by
  intro c hc
  unfold verCore at hc
  rcases List.mem_append.mp hc with h | h
  · exact Or.inl (natDigits_all_digits ma c h)
  rcases List.mem_cons.mp h with h | h
  · exact Or.inr h
  rcases List.mem_append.mp h with h | h
  · exact Or.inl (natDigits_all_digits mi c h)
  rcases List.mem_cons.mp h with h | h
  · exact Or.inr h
  · exact Or.inl (natDigits_all_digits pa c h)

theorem dropWhile_eq_self_of_all (p : Char → Bool) (l : PyStr)
    (h : ∀ c ∈ l, p c = false) : l.dropWhile p = l := by
  cases l with
  | nil => rfl
  | cons c t =>
    exact List.dropWhile_cons_of_neg (by simp [h c (List.mem_cons_self c t)])

theorem pyStrip_of_all_nonspace (l : PyStr)
    (h : ∀ c ∈ l, isSpaceChar c = false) : pyStrip l = l := by
  unfold pyStrip pyStripL pyStripR
  rw [dropWhile_eq_self_of_all _ _ h,
    dropWhile_eq_self_of_all _ _ (fun c hc => h c (List.mem_reverse.mp hc)),
    List.reverse_reverse]

theorem splitFirstRest_of_not_mem (sep : Char) (l : PyStr) (h : sep ∉ l) :
    splitFirstRest sep l = (l, Option.none) := by
  simp [splitFirstRest, splitOn_eq_single sep l h]

theorem semverMatch_verCore (ma mi pa : Nat) :
    semverMatch (verCore ma mi pa) = true := by
  have hplus : '+' ∉ verCore ma mi pa := not_mem_verCore ma mi pa '+' rfl (by decide)
  have hdash : '-' ∉ verCore ma mi pa := not_mem_verCore ma mi pa '-' rfl (by decide)
  simp [semverMatch, splitFirstRest_of_not_mem '+' _ hplus,
    splitFirstRest_of_not_mem '-' _ hdash, splitOn_dot_verCore,
    numericIdB_natDigits]

/-! ## Claim C8: the semver validator -/

/-- C8 (amended): `is_valid_version` accepts exactly the strings whose
whitespace-stripped form matches the semantic-version grammar: it accepts
every canonically rendered `MAJOR.MINOR.PATCH` and `1.0.0-alpha+001`, and
rejects `""`, `"1.0"` and `"v1.0.0"`. -/
theorem is_valid_version_spec :
    (∀ ma mi pa : Nat, is_valid_version (verCore ma mi pa) = true) ∧
    (∀ s : PyStr, is_valid_version s = semverMatch (pyStrip s)) ∧
    is_valid_version (pys "1.0.0-alpha+001") = true ∧
    is_valid_version (pys "") = false ∧
    is_valid_version (pys "1.0") = false ∧
    is_valid_version (pys "v1.0.0") = false := by
  refine ⟨?_, fun s => rfl, by decide, by decide, by decide, by decide⟩
  intro ma mi pa
  unfold is_valid_version
  rw [pyStrip_of_all_nonspace _
    (fun c hc => nonspace_of_digit_or_dot c (mem_verCore_digit_or_dot ma mi pa c hc))]
  exact semverMatch_verCore ma mi pa

/-- C8 counterexample: the source validator strips surrounding whitespace
before matching, so it accepts `" 1.0.0"`, a string the grammar itself
rejects: acceptance is not exactly grammar membership. -/
theorem is_valid_version_accepts_untrimmed :
    is_valid_version (pys " 1.0.0") = true ∧
    semverMatch (pys " 1.0.0") = false := by decide

/-! ## Helper lemmas: the classifier on identical normalized prompts -/

theorem any_self_and_not (l : List PyStr) (f : PyStr → Bool) :
    (l.any fun k => f k && !f k) = false := by
  simp [List.any_eq_false]

theorem filter_not_self_nil (a : List PyStr) :
    (a.filter fun x => decide (x ∉ a)) = [] := by
  apply List.filter_eq_nil_iff.mpr
  intro x hx
  simp [hx]

theorem pyInter_self (a : List PyStr) : pyInter a a = a := by
  unfold pyInter
  apply List.filter_eq_self.mpr
  intro x hx
  simpa using hx

theorem pyUnion_self (a : List PyStr) : pyUnion a a = a := by
  unfold pyUnion
  rw [filter_not_self_nil, List.append_nil]

theorem natAbsDiff_self (n : Nat) : natAbsDiff n n = 0 := by
  simp [natAbsDiff]

theorem _is_major_change_self (s : PyStr) : _is_major_change s s = false := by
  unfold _is_major_change
  simp only [any_self_and_not, pyInter_self, pyUnion_self, natAbsDiff_self]
  have h4 : ∀ L : Nat, decide (4 * L < L) = false := fun L => decide_eq_false (by omega)
  simp [h4]

theorem _is_minor_change_self (s : PyStr) : _is_minor_change s s = false := by
  unfold _is_minor_change
  simp only [any_self_and_not, filter_not_self_nil]
  have h13 : ∀ L : Nat, decide (13 * L < 10 * L) = false :=
    fun L => decide_eq_false (by omega)
  have hs1 : ∀ L : Nat, decide (L + 1 < L) = false :=
    fun L => decide_eq_false (by omega)
  simp [h13, hs1]

/-! ## Claim C10: formatting-only edits are patch -/

/-- C10: whenever two prompts have the same normalized form — whitespace
runs collapsed, ends trimmed, lower-cased — `analyze_prompt_changes`
returns `"patch"`, even when the raw strings differ byte-for-byte: every
major and minor condition compares the two identical normalized strings
and fails. -/
theorem analyze_prompt_changes_patch_of_eq_normalized :
    ∀ old_prompt new_prompt : PyStr,
      _normalize_prompt old_prompt = _normalize_prompt new_prompt →
      analyze_prompt_changes old_prompt new_prompt = pys "patch" := by
  intro old_prompt new_prompt h
  simp only [analyze_prompt_changes]
  by_cases he : old_prompt = new_prompt
  · rw [if_pos he]
  · rw [if_neg he, h, _is_major_change_self, _is_minor_change_self]
    rfl

/-- Witness for C10: a capitalization-and-whitespace-only edit, different
byte-for-byte, classified patch. -/
theorem analyze_prompt_changes_patch_witness :
    _normalize_prompt (pys "Hello  World ") = _normalize_prompt (pys "hello world") ∧
    analyze_prompt_changes (pys "Hello  World ") (pys "hello world") = pys "patch" :=
  ⟨by decide, analyze_prompt_changes_patch_of_eq_normalized _ _ (by decide)⟩

/-! ## Helper lemmas: substring containment -/

theorem isPrefixOf_self_append (n b : PyStr) : n.isPrefixOf (n ++ b) = true := by
  induction n with
  | nil => simp [List.isPrefixOf]
  | cons c t ih => simp [List.isPrefixOf_cons₂, ih]

theorem strIn_of_isPrefixOf (hay n : PyStr) (h : n.isPrefixOf hay = true) :
    strIn n hay = true := by
  cases hay with
  | nil =>
    cases n with
    | nil => rfl
    | cons c t => simp [List.isPrefixOf] at h
  | cons c t => simp [strIn, h]

theorem strIn_cons_of_strIn (n : PyStr) (c : Char) (t : PyStr)
    (h : strIn n t = true) : strIn n (c :: t) = true := by
  simp [strIn, h]

theorem strIn_append_left : ∀ (a n b : PyStr), strIn n (a ++ (n ++ b)) = true := by
  intro a
  induction a with
  | nil => intro n b; exact strIn_of_isPrefixOf _ _ (isPrefixOf_self_append n b)
  | cons c t ih => intro n b; exact strIn_cons_of_strIn _ c _ (ih n b)

/-! ## Helper lemmas: strip and collapse around an appended sentence -/

theorem dropWhile_head_not (p : Char → Bool) :
    ∀ (l : PyStr) c t, l.dropWhile p = c :: t → p c = false := by
  intro l
  induction l with
  | nil => intro c t h; simp at h
  | cons a l2 ih =>
    intro c t h
    by_cases hp : p a = true
    · rw [List.dropWhile_cons_of_pos hp] at h
      exact ih c t h
    · rw [List.dropWhile_cons_of_neg hp] at h
      cases h
      cases hb : p a
      · rfl
      · exact absurd hb hp

theorem pyStripR_append_nonspace (a : PyStr) (c : Char)
    (hc : isSpaceChar c = false) : pyStripR (a ++ [c]) = a ++ [c] := by
  unfold pyStripR
  rw [List.reverse_append]
  show ((c :: a.reverse).dropWhile isSpaceChar).reverse = a ++ [c]
  rw [List.dropWhile_cons_of_neg (by simp [hc])]
  simp

theorem stripR_decomp (y : PyStr) :
    pyStripR y ++ (y.reverse.takeWhile isSpaceChar).reverse = y := by
  unfold pyStripR
  rw [← List.reverse_append, List.takeWhile_append_dropWhile, List.reverse_reverse]

theorem tail_all_space (y : PyStr) :
    ∀ c ∈ (y.reverse.takeWhile isSpaceChar).reverse, isSpaceChar c = true := by
  intro c hc
  exact List.mem_takeWhile_imp (List.mem_reverse.mp hc)

theorem collapse_append_last_nonspace :
    ∀ (a : PyStr) (c : Char) (w : PyStr), isSpaceChar c = false → w ≠ [] →
      collapseRuns ((a ++ [c]) ++ w) = collapseRuns (a ++ [c]) ++ collapseRuns w := by
  intro a
  induction a with
  | nil =>
    intro c w hc hw
    cases w with
    | nil => exact absurd rfl hw
    | cons w0 wt =>
      show collapseRuns (c :: w0 :: wt) = collapseRuns [c] ++ collapseRuns (w0 :: wt)
      simp only [collapseRuns, hc, Bool.false_and, Bool.false_eq_true, if_false]
      simp [hc]
  | cons a0 at2 ih =>
    intro c w hc hw
    cases hsh : at2 ++ [c] with
    | nil => exact absurd hsh (by simp)
    | cons b bt =>
      have hrec := ih c w hc hw
      rw [hsh] at hrec
      show collapseRuns (a0 :: ((at2 ++ [c]) ++ w)) =
        collapseRuns (a0 :: (at2 ++ [c])) ++ collapseRuns w
      rw [hsh]
      rw [List.cons_append] at hrec ⊢
      by_cases hab : (isSpaceChar a0 && isSpaceChar b) = true
      · show collapseRuns (a0 :: b :: (bt ++ w)) = _
        rw [show collapseRuns (a0 :: b :: (bt ++ w)) = collapseRuns (b :: (bt ++ w)) from by
          simp only [collapseRuns, hab, if_true]]
        rw [show collapseRuns (a0 :: b :: bt) = collapseRuns (b :: bt) from by
          simp only [collapseRuns, hab, if_true]]
        exact hrec
      · show collapseRuns (a0 :: b :: (bt ++ w)) = _
        rw [show collapseRuns (a0 :: b :: (bt ++ w)) =
            (if isSpaceChar a0 then ' ' else a0) :: collapseRuns (b :: (bt ++ w)) from by
          simp only [collapseRuns, hab, Bool.false_eq_true, if_false]]
        rw [show collapseRuns (a0 :: b :: bt) =
            (if isSpaceChar a0 then ' ' else a0) :: collapseRuns (b :: bt) from by
          simp only [collapseRuns, hab, Bool.false_eq_true, if_false]]
        rw [hrec]
        simp

theorem collapse_space_run :
    ∀ (trail : PyStr) (a0 : Char) (At : PyStr), isSpaceChar a0 = false →
      (∀ c ∈ trail, isSpaceChar c = true) →
      collapseRuns (trail ++ (' ' :: (a0 :: At))) = ' ' :: collapseRuns (a0 :: At) := by
  intro trail
  induction trail with
  | nil =>
    intro a0 At hA _
    show collapseRuns (' ' :: a0 :: At) = _
    simp only [collapseRuns, hA]
    simp [hA]
  | cons t0 ts ih =>
    intro a0 At hA htrail
    have ht0 : isSpaceChar t0 = true := htrail t0 (List.mem_cons_self t0 ts)
    cases ts with
    | nil =>
      show collapseRuns (t0 :: ' ' :: a0 :: At) = _
      simp only [collapseRuns, ht0]
      simp only [show (isSpaceChar ' ') = true from rfl, Bool.and_self, if_true]
      simp only [collapseRuns, hA]
      simp [hA]
    | cons t1 ts2 =>
      have ht1 : isSpaceChar t1 = true := htrail t1 (by simp)
      have ihv := ih a0 At hA (fun c hc => htrail c (List.mem_cons_of_mem _ hc))
      show collapseRuns (t0 :: ((t1 :: ts2) ++ (' ' :: (a0 :: At)))) = _
      rw [List.cons_append]
      rw [show collapseRuns (t0 :: t1 :: (ts2 ++ (' ' :: (a0 :: At)))) =
          collapseRuns (t1 :: (ts2 ++ (' ' :: (a0 :: At)))) from by
        simp only [collapseRuns, ht0, ht1, Bool.and_self, if_true]]
      rw [← List.cons_append]
      exact ihv

theorem strIn_also_normalized_suffix (x : PyStr) :
    strIn (pys "also") (_normalize_prompt (x ++ featSuffix)) = true := by
  unfold _normalize_prompt pyStrip
  cases hx : pyStripL x with
  | nil =>
    have h1 : pyStripL (x ++ featSuffix) = pyStripL featSuffix := by
      unfold pyStripL at hx ⊢
      rw [List.dropWhile_append, hx]
      simp
    rw [h1]
    decide
  | cons y0 yt =>
    have h1 : pyStripL (x ++ featSuffix) = (y0 :: yt) ++ featSuffix := by
      unfold pyStripL at hx ⊢
      rw [List.dropWhile_append, hx]
      simp
    rw [h1]
    have hsfx : featSuffix = (pys " Also supports new optional retries") ++ ['.'] := by
      decide
    have h2 : pyStripR ((y0 :: yt) ++ featSuffix) = (y0 :: yt) ++ featSuffix := by
      rw [hsfx, ← List.append_assoc]
      exact pyStripR_append_nonspace _ '.' rfl
    rw [h2]
    have hy0 : isSpaceChar y0 = false := dropWhile_head_not isSpaceChar x y0 yt hx
    have hdw : (y0 :: yt).reverse.dropWhile isSpaceChar ≠ [] := by
      intro hnil
      rw [List.dropWhile_eq_nil_iff] at hnil
      have h3 := hnil y0 (by simp)
      rw [hy0] at h3
      exact Bool.false_ne_true h3
    cases hdwe : (y0 :: yt).reverse.dropWhile isSpaceChar with
    | nil => exact absurd hdwe hdw
    | cons d dt =>
      have hd : isSpaceChar d = false := dropWhile_head_not isSpaceChar _ d dt hdwe
      have hzdef : pyStripR (y0 :: yt) = dt.reverse ++ [d] := by
        unfold pyStripR
        rw [hdwe, List.reverse_cons]
      have hy : (y0 :: yt) =
          (dt.reverse ++ [d]) ++ ((y0 :: yt).reverse.takeWhile isSpaceChar).reverse := by
        rw [← hzdef]
        exact (stripR_decomp (y0 :: yt)).symm
      have hsfx2 : featSuffix = ' ' :: (pys "Also supports new optional retries.") := by
        decide
      rw [show (y0 :: yt) ++ featSuffix = ((dt.reverse ++ [d]) ++
          (((y0 :: yt).reverse.takeWhile isSpaceChar).reverse ++ featSuffix)) from by
        rw [← List.append_assoc, ← hy]]
      rw [collapse_append_last_nonspace dt.reverse d _ hd (by simp [hsfx2])]
      rw [hsfx2]
      rw [show (pys "Also supports new optional retries.") =
          'A' :: (pys "lso supports new optional retries.") from rfl]
      rw [collapse_space_run _ 'A' (pys "lso supports new optional retries.") rfl
        (tail_all_space (y0 :: yt))]
      rw [List.map_append]
      rw [show List.map toLowerChar
            (' ' :: collapseRuns ('A' :: pys "lso supports new optional retries."))
          = ' ' :: (pys "also" ++ pys " supports new optional retries.") from by decide]
      rw [List.append_cons]
      exact strIn_append_left _ (pys "also") _

/-! ## Claims C9: the appended-feature scenario -/

/-- C9 counterexample: for `old = "a"` the appended sentence raises the
`.`-count from 1 to 2, the sentence-ratio major condition fires
(`1/1 > 0.6`), and the classifier returns `"major"`, not `"minor"` — the
claim does not hold for every old prompt. -/
theorem analyze_append_feature_major_on_short :
    analyze_prompt_changes (pys "a") (pys "a" ++ featSuffix) = pys "major" := by
  decide

/-- C9 (amended): appending `" Also supports new optional retries."` is
classified `"minor"` whenever no major condition fires on the normalized
pair and the feature keyword `"also"` does not already occur in the
normalized old prompt: the appended text always puts `"also"` into the
normalized new prompt, so the first feature-keyword check fires. -/
theorem analyze_append_feature_minor :
    ∀ old_prompt : PyStr,
      _is_major_change (_normalize_prompt old_prompt)
        (_normalize_prompt (old_prompt ++ featSuffix)) = false →
      strIn (pys "also") (_normalize_prompt old_prompt) = false →
      analyze_prompt_changes old_prompt (old_prompt ++ featSuffix) = pys "minor" := by
  intro old_prompt hmaj halso
  have hne : old_prompt ≠ old_prompt ++ featSuffix := by
    intro h
    have hlen := congrArg List.length h
    rw [List.length_append] at hlen
    have h36 : featSuffix.length = 36 := rfl
    omega
  have hminor : _is_minor_change (_normalize_prompt old_prompt)
      (_normalize_prompt (old_prompt ++ featSuffix)) = true := by
    unfold _is_minor_change
    have h1 := strIn_also_normalized_suffix old_prompt
    simp [feature_keywords, h1, halso]
  simp only [analyze_prompt_changes]
  rw [if_neg hne]
  simp [hmaj, hminor]

/-- Witness for C9 at a concrete old prompt on which no major condition
fires and `"also"` is absent. -/
theorem analyze_append_feature_minor_witness :
    analyze_prompt_changes oldPromptW (oldPromptW ++ featSuffix) = pys "minor" :=
  analyze_append_feature_minor oldPromptW (by decide) (by decide)

/-! ## Helper lemmas: the isoformat round trip -/

theorem except_ok_bind (a : α) (f : α → Except PyErr β) :
    (Except.ok a >>= f : Except PyErr β) = f a := rfl

theorem not_mem_padNat (w n : Nat) (c : Char) (hc : isDigitChar c = false) :
    c ∉ padNat w n := by
  intro hmem
  have := padNat_all_digits w n c hmem
  rw [hc] at this
  exact Bool.false_ne_true this

theorem fromisoformat_isoformat (d : Datetime) :
    fromisoformat d.isoformat = Except.ok d := by
  have hy := not_mem_padNat 4 d.year
  have hmo := not_mem_padNat 2 d.month
  have hda := not_mem_padNat 2 d.day
  have hh := not_mem_padNat 2 d.hour
  have hmi := not_mem_padNat 2 d.minute
  have hs := not_mem_padNat 2 d.second
  have hus := not_mem_padNat 6 d.microsecond
  have husT : ∀ c : Char, isDigitChar c = false → c ≠ '.' →
      c ∉ (if d.microsecond = 0 then ([] : PyStr)
            else '.' :: padNat 6 d.microsecond) := by
    intro c hc hdot hmem
    split_ifs at hmem
    · simp at hmem
    · rcases List.mem_cons.mp hmem with h | h
      · exact hdot h
      · exact hus c hc h
  have hdateT : 'T' ∉ padNat 4 d.year ++ ('-' :: (padNat 2 d.month ++ ('-' :: padNat 2 d.day))) := by
    intro hmem
    rcases List.mem_append.mp hmem with h | h
    · exact hy 'T' rfl h
    rcases List.mem_cons.mp h with h | h
    · exact absurd h (by decide)
    rcases List.mem_append.mp h with h | h
    · exact hmo 'T' rfl h
    rcases List.mem_cons.mp h with h | h
    · exact absurd h (by decide)
    · exact hda 'T' rfl h
  have htimeT : 'T' ∉ padNat 2 d.hour ++ (':' :: (padNat 2 d.minute ++ (':' ::
      (padNat 2 d.second ++
        (if d.microsecond = 0 then ([] : PyStr) else '.' :: padNat 6 d.microsecond))))) := by
    intro hmem
    rcases List.mem_append.mp hmem with h | h
    · exact hh 'T' rfl h
    rcases List.mem_cons.mp h with h | h
    · exact absurd h (by decide)
    rcases List.mem_append.mp h with h | h
    · exact hmi 'T' rfl h
    rcases List.mem_cons.mp h with h | h
    · exact absurd h (by decide)
    rcases List.mem_append.mp h with h | h
    · exact hs 'T' rfl h
    · exact husT 'T' rfl (by decide) h
  have hT : splitOn 'T' d.isoformat =
      [padNat 4 d.year ++ ('-' :: (padNat 2 d.month ++ ('-' :: padNat 2 d.day))),
       padNat 2 d.hour ++ (':' :: (padNat 2 d.minute ++ (':' ::
         (padNat 2 d.second ++
           (if d.microsecond = 0 then [] else '.' :: padNat 6 d.microsecond)))))] := by
    unfold Datetime.isoformat
    rw [splitOn_append_sep 'T' _ _ hdateT, splitOn_eq_single 'T' _ htimeT]
  have hdate : splitOn '-' (padNat 4 d.year ++ ('-' :: (padNat 2 d.month ++
      ('-' :: padNat 2 d.day)))) = [padNat 4 d.year, padNat 2 d.month, padNat 2 d.day] := by
    rw [splitOn_append_sep '-' _ _ (fun hmem => hy '-' rfl hmem),
      splitOn_append_sep '-' _ _ (fun hmem => hmo '-' rfl hmem),
      splitOn_eq_single '-' _ (fun hmem => hda '-' rfl hmem)]
  have htime : splitOn ':' (padNat 2 d.hour ++ (':' :: (padNat 2 d.minute ++ (':' ::
      (padNat 2 d.second ++
        (if d.microsecond = 0 then [] else '.' :: padNat 6 d.microsecond)))))) =
      [padNat 2 d.hour, padNat 2 d.minute,
       padNat 2 d.second ++
         (if d.microsecond = 0 then [] else '.' :: padNat 6 d.microsecond)] := by
    rw [splitOn_append_sep ':' _ _ (fun hmem => hh ':' rfl hmem),
      splitOn_append_sep ':' _ _ (fun hmem => hmi ':' rfl hmem),
      splitOn_eq_single ':' _ (by
        intro hmem
        rcases List.mem_append.mp hmem with h | h
        · exact hs ':' rfl h
        · exact husT ':' rfl (by decide) h)]
  obtain ⟨hv1, hv2, hv3, hv4, hv5, hv6, hv7, hv8, hv9, hv10⟩ := d.valid
  have h31 := daysInMonth_le_31 d.year d.month
  have hly : (natDigits d.year).length ≤ 4 := natDigits_length_le d.year 4
    (by rw [show (10 : Nat) ^ 4 = 10000 from by norm_num]; omega) (by norm_num)
  have hlmo : (natDigits d.month).length ≤ 2 := natDigits_length_le d.month 2
    (by rw [show (10 : Nat) ^ 2 = 100 from by norm_num]; omega) (by norm_num)
  have hlda : (natDigits d.day).length ≤ 2 := natDigits_length_le d.day 2
    (by rw [show (10 : Nat) ^ 2 = 100 from by norm_num]; omega) (by norm_num)
  have hlh : (natDigits d.hour).length ≤ 2 := natDigits_length_le d.hour 2
    (by rw [show (10 : Nat) ^ 2 = 100 from by norm_num]; omega) (by norm_num)
  have hlmi : (natDigits d.minute).length ≤ 2 := natDigits_length_le d.minute 2
    (by rw [show (10 : Nat) ^ 2 = 100 from by norm_num]; omega) (by norm_num)
  have hlse : (natDigits d.second).length ≤ 2 := natDigits_length_le d.second 2
    (by rw [show (10 : Nat) ^ 2 = 100 from by norm_num]; omega) (by norm_num)
  unfold fromisoformat
  rw [hT]
  simp only [hdate, htime]
  by_cases hz : d.microsecond = 0
  · rw [if_pos hz, List.append_nil]
    simp only [splitOn_eq_single '.' _ (fun hmem => hs '.' rfl hmem),
      readNatWidth_padNat 4 d.year hly, readNatWidth_padNat 2 d.month hlmo,
      readNatWidth_padNat 2 d.day hlda, readNatWidth_padNat 2 d.hour hlh,
      readNatWidth_padNat 2 d.minute hlmi, readNatWidth_padNat 2 d.second hlse,
      except_ok_bind]
    rw [← hz]
    rw [dif_pos ⟨hv1, hv2, hv3, hv4, hv5, hv6, hv7, hv8, hv9, hv10⟩]
  · rw [if_neg hz]
    simp only [splitOn_append_sep '.' _ _ (fun hmem => hs '.' rfl hmem),
      splitOn_eq_single '.' _ (fun hmem => hus '.' rfl hmem),
      readNatWidth_padNat 4 d.year hly, readNatWidth_padNat 2 d.month hlmo,
      readNatWidth_padNat 2 d.day hlda, readNatWidth_padNat 2 d.hour hlh,
      readNatWidth_padNat 2 d.minute hlmi, readNatWidth_padNat 2 d.second hlse,
      readNatFraction_padNat d.microsecond hv10, except_ok_bind]
    rw [dif_pos ⟨hv1, hv2, hv3, hv4, hv5, hv6, hv7, hv8, hv9, hv10⟩]

/-! ## Helper lemmas: the record round trip -/

theorem pyOrStr_idem (v : Option PyStr) :
    pyOrStr (some (pyOrStr v [])) [] = pyOrStr v [] := by
  cases v with
  | none => rfl
  | some s =>
    simp only [pyOrStr]
    split_ifs with h1 h2 <;> simp_all

theorem pyOrStr_some_of_ne_nil (s d : PyStr) (h : s ≠ []) :
    pyOrStr (some s) d = s := by
  simp only [pyOrStr]
  rw [if_neg (by simpa [List.isEmpty_iff] using h)]

theorem init_execution_id_ne_nil (now : Datetime) (p v fn : PyStr)
    (d : Option PyStr) (t : Option (List PyStr)) (c : Option Datetime)
    (i : Option (List (PyStr × PyVal))) (o : PyVal) (et : Option ℚ)
    (ei : Option PyStr) :
    (PromptVersion.init now p v fn d t c i o et ei).execution_id ≠ [] := by
  cases ei with
  | none => simp [PromptVersion.init, pyOrStr, Datetime.strftimeCompact]
  | some s =>
    simp only [PromptVersion.init, pyOrStr]
    split_ifs with h
    · simp [Datetime.strftimeCompact]
    · simpa [List.isEmpty_iff] using h

theorem exceptMapM_asStr_map (l : List PyStr) :
    exceptMapM asStr (l.map PyVal.str) = Except.ok l := by
  induction l with
  | nil => rfl
  | cons s t ih => simp [exceptMapM, asStr, ih, except_ok_bind]

theorem pyOrStr_some_nil (s : PyStr) : pyOrStr (some s) [] = s := by
  simp only [pyOrStr]
  split_ifs with h
  · simpa [List.isEmpty_iff] using h.symm
  · rfl

theorem init_execution_time_proj (now : Datetime) (p v fn : PyStr)
    (d : Option PyStr) (t : Option (List PyStr)) (c : Option Datetime)
    (i : Option (List (PyStr × PyVal))) (o : PyVal) (et : Option ℚ)
    (ei : Option PyStr) :
    (PromptVersion.init now p v fn d t c i o et ei).execution_time = et := rfl

theorem init_reinit (now2 : Datetime) (r : PromptVersion)
    (hhash : r.prompt_hash = md5Hex8 r.prompt) (heid : r.execution_id ≠ []) :
    PromptVersion.init now2 r.prompt r.version r.function_name (some r.description)
      (some r.tags) (some r.created_at) (some r.inputs) r.output r.execution_time
      (some r.execution_id) = r := by
  cases r with
  | mk rp rv rf rd rt rc rh ri ro re rid =>
    simp only at hhash heid
    unfold PromptVersion.init
    simp only [Option.getD_some, pyOrStr_some_nil,
      pyOrStr_some_of_ne_nil _ _ heid, PromptVersion.mk.injEq, hhash]

theorem from_dict_to_dict_aux (now now2 : Datetime) (p v fn : PyStr)
    (d : Option PyStr) (t : Option (List PyStr)) (c : Option Datetime)
    (i : Option (List (PyStr × PyVal))) (o : PyVal) (et : Option ℚ)
    (ei : Option PyStr) :
    PromptVersion.from_dict now2 (PromptVersion.init now p v fn d t c i o et ei).to_dict
      = Except.ok (PromptVersion.init now p v fn d t c i o et ei) := by
  have hiso := fromisoformat_isoformat
    ((PromptVersion.init now p v fn d t c i o et ei).created_at)
  have hre := init_reinit now2 (PromptVersion.init now p v fn d t c i o et ei)
    rfl (init_execution_id_ne_nil now p v fn d t c i o et ei)
  cases et with
  | none =>
    unfold PromptVersion.from_dict
    simp +decide only [PromptVersion.to_dict, dictGetItem, dictGet, except_ok_bind,
      hiso, asStr, asStrList, exceptMapM_asStr_map, if_true, if_false,
      Option.getD_some, init_execution_time_proj]
    exact congrArg Except.ok hre
  | some q =>
    unfold PromptVersion.from_dict
    simp +decide only [PromptVersion.to_dict, dictGetItem, dictGet, except_ok_bind,
      hiso, asStr, asStrList, exceptMapM_asStr_map, if_true, if_false,
      Option.getD_some, init_execution_time_proj]
    exact congrArg Except.ok hre

/-! ## Claim C7: serialization round trip -/

/-- C7: for every record built by the constructor, `from_dict` after
`to_dict` reproduces the record exactly — in particular promptText,
version, ownerName, tags, inputs, output and executionTimeSeconds — with
promptHash recomputed from promptText and equal to the original; and any
two records constructed from the same prompt text have the same
promptHash, whatever their other fields. -/
theorem prompt_version_roundtrip :
    (∀ (now now2 : Datetime) (p v fn : PyStr) (d : Option PyStr)
      (t : Option (List PyStr)) (c : Option Datetime)
      (i : Option (List (PyStr × PyVal))) (o : PyVal) (et : Option ℚ)
      (ei : Option PyStr),
      PromptVersion.from_dict now2
          (PromptVersion.init now p v fn d t c i o et ei).to_dict
        = Except.ok (PromptVersion.init now p v fn d t c i o et ei)) ∧
    (∀ (now now2 : Datetime) (p v v2 fn fn2 : PyStr) (d d2 : Option PyStr)
      (t t2 : Option (List PyStr)) (c c2 : Option Datetime)
      (i i2 : Option (List (PyStr × PyVal))) (o o2 : PyVal) (et et2 : Option ℚ)
      (ei ei2 : Option PyStr),
      (PromptVersion.init now p v fn d t c i o et ei).prompt_hash
        = (PromptVersion.init now2 p v2 fn2 d2 t2 c2 i2 o2 et2 ei2).prompt_hash) :=
  ⟨from_dict_to_dict_aux,
   fun _ _ _ _ _ _ _ _ _ _ _ _ _ _ _ _ _ _ _ _ _ => rfl⟩

/-! ## Claim C1: add then get -/

/-- C1 (code bug): `add_prompt` builds its key from
`record.project_version` and `record.agent_version`, attributes
models.PromptVersion never defines, so every `add_prompt` raises
AttributeError instead of inserting under `{ownerName}_{version}` — the
add/get round trip of the claim can never start. -/
theorem add_prompt_always_raises :
    ∀ (store : Index) (pv : PromptVersion),
      add_prompt store pv = Except.error PyErr.attributeError := by
  intro store pv
  rfl

/-! ## Claim C2: failure path of the tracking wrapper -/

/-- C2 (code bug): when the wrapped call fails, the wrapper re-raises the
original exception directly from the except block — before the version
record is constructed or stored — so the caller sees the original error
but nothing is persisted and no "ERROR: ..." output is recorded.  The
hypothesis restricts to stores on which the wrapper reaches the call at
all (on any store already holding a record for the function,
`get_latest_version` itself raises AttributeError first). -/
theorem wrapper_reraises_without_persisting :
    ∀ (versionArg : PyStr) (auto_version : Bool) (description : Option PyStr)
      (tags : Option (List PyStr)) (store : Index)
      (func_name formatted_prompt : PyStr) (args : List (PyStr × PyVal))
      (now : Datetime) (elapsed : Option ℚ) (e : PyStr),
      get_latest_version store func_name = Except.ok Option.none →
      chorusWrapperRun versionArg auto_version description tags store func_name
        formatted_prompt args now elapsed (Except.error e)
        = WrapperOutcome.userError e store := by
  intro versionArg auto_version description tags store func_name formatted_prompt
    args now elapsed e hlatest
  unfold chorusWrapperRun
  rw [hlatest]

/-- Witness for C2: a failing call on an empty store re-raises `"boom"`
and leaves the store empty. -/
theorem wrapper_reraises_witness :
    chorusWrapperRun (pys "1.0.0") true Option.none Option.none [] (pys "f")
      (pys "P") [] dt0 (some 1) (Except.error (pys "boom"))
      = WrapperOutcome.userError (pys "boom") [] :=
  wrapper_reraises_without_persisting (pys "1.0.0") true Option.none Option.none
    [] (pys "f") (pys "P") [] dt0 (some 1) (pys "boom") rfl

/-! ## Claim C3: latest by semantic version -/

/-- C3 (code bug): whenever any stored record matches the requested owner
name, `get_latest_project_version` evaluates its max-key on the first
match, reading `record.project_version` — an attribute
models.PromptVersion never defines — and raises AttributeError instead of
returning the record with the greatest parsed version. -/
theorem get_latest_project_version_raises :
    ∀ (store : Index) (function_name : PyStr),
      (∃ pv ∈ indexValues store, pv.function_name = function_name) →
      get_latest_project_version store function_name
        = Except.error PyErr.attributeError := by
  intro store fn hex
  obtain ⟨pv0, hmem, hfn⟩ := hex
  unfold get_latest_project_version
  have hne : (indexValues store).filter
      (fun pv => decide (pv.function_name = fn)) ≠ [] := by
    intro hnil
    have hm : pv0 ∈ (indexValues store).filter
        (fun pv => decide (pv.function_name = fn)) := by
      rw [List.mem_filter]
      exact ⟨hmem, by simp [hfn]⟩
    rw [hnil] at hm
    simp at hm
  cases hv : (indexValues store).filter (fun pv => decide (pv.function_name = fn)) with
  | nil => exact absurd hv hne
  | cons v vs =>
    rfl

/-- Witness for C3: a one-record store with a matching owner raises. -/
theorem get_latest_project_version_raises_witness :
    get_latest_project_version [(pys "k", pvW)] (pys "f")
      = Except.error PyErr.attributeError :=
  get_latest_project_version_raises [(pys "k", pvW)] (pys "f")
    ⟨pvW, by simp [indexValues], rfl⟩

/-! ## Claim C4: load-time fault tolerance -/

theorem loadEntriesAux_benign (now : Datetime) :
    ∀ (entries : List (PyStr × PyVal)) (acc : Index),
      (entries.all fun kv =>
        match PromptVersion.from_dictV now kv.2 with
        | Except.ok _ => true
        | Except.error e => caughtByLoad e) = true →
      (loadEntriesAux now acc entries).2 = Option.none ∨
        (loadEntriesAux now acc entries).2 = some PyErr.keyError := by
  intro entries
  induction entries with
  | nil => intro acc _; left; rfl
  | cons kv rest ih =>
    intro acc hall
    obtain ⟨k, v⟩ := kv
    rw [List.all_cons] at hall
    simp only [Bool.and_eq_true] at hall
    unfold loadEntriesAux
    cases hfd : PromptVersion.from_dictV now v with
    | ok pv => exact ih _ hall.2
    | error e =>
      have h1 := hall.1
      rw [hfd] at h1
      have he : e = PyErr.keyError := of_decide_eq_true h1
      subst he
      right
      rfl

theorem loadData_benign (now : Datetime) (acc : Index) (v : PyVal)
    (h : benignVal now v = true) :
    (loadData now acc v).2 = Option.none ∨
      (loadData now acc v).2 = some PyErr.keyError := by
  cases v with
  | dict entries => exact loadEntriesAux_benign now entries acc h
  | none => exact absurd h (by simp [benignVal])
  | bool b => exact absurd h (by simp [benignVal])
  | int n => exact absurd h (by simp [benignVal])
  | float q => exact absurd h (by simp [benignVal])
  | str s => exact absurd h (by simp [benignVal])
  | list xs => exact absurd h (by simp [benignVal])

theorem loadLegacy_val (now : Datetime) (acc : Index) (v : PyVal) :
    loadLegacy now acc (some (FileContent.val v)) =
      (match loadData now acc v with
       | (acc2, Option.none) => Except.ok acc2
       | (_, some e) =>
         if caughtByLoad e = true then Except.ok [] else Except.error e) := rfl

theorem loadLegacy_benign (now : Datetime) (acc : Index)
    (legacy : Option FileContent)
    (h : (match legacy with
          | Option.none => true
          | some f => benignFile now f) = true) :
    ∃ idx : Index, loadLegacy now acc legacy = Except.ok idx := by
  cases legacy with
  | none => exact ⟨acc, rfl⟩
  | some f =>
    cases f with
    | invalid => exact ⟨[], rfl⟩
    | val v =>
      have hb : benignVal now v = true := h
      rcases loadData_benign now acc v hb with h2 | h2
      · cases hd : loadData now acc v with
        | mk acc2 err =>
          rw [hd] at h2
          simp only at h2
          subst h2
          rw [loadLegacy_val, hd]
          exact ⟨acc2, rfl⟩
      · cases hd : loadData now acc v with
        | mk acc2 err =>
          rw [hd] at h2
          simp only at h2
          subst h2
          rw [loadLegacy_val, hd]
          exact ⟨[], rfl⟩

theorem load_prompts_benign (now : Datetime) (fs : StorageFS)
    (h : benignFS now fs = true) :
    ∃ idx : Index, _load_prompts now fs = Except.ok idx := by
  unfold benignFS at h
  simp only [Bool.and_eq_true] at h
  obtain ⟨h1, h2⟩ := h
  obtain ⟨timestamped, legacy⟩ := fs
  cases timestamped with
  | nil => exact loadLegacy_benign now [] legacy h2
  | cons latest rest =>
    cases latest with
    | invalid => exact loadLegacy_benign now [] legacy h2
    | val v =>
      have hb : benignVal now v = true := h1
      have hstep : _load_prompts now ⟨FileContent.val v :: rest, legacy⟩ =
          (match loadData now [] v with
           | (acc, Option.none) => Except.ok acc
           | (acc, some e) =>
             if caughtByLoad e = true then loadLegacy now acc legacy
             else Except.error e) := rfl
      rcases loadData_benign now [] v hb with h3 | h3
      · cases hd : loadData now [] v with
        | mk acc2 err =>
          rw [hd] at h3
          simp only at h3
          subst h3
          rw [hstep, hd]
          exact ⟨acc2, rfl⟩
      · cases hd : loadData now [] v with
        | mk acc2 err =>
          rw [hd] at h3
          simp only at h3
          subst h3
          rw [hstep, hd]
          exact loadLegacy_benign now acc2 legacy h2

/-- C4 (amended): store construction tolerates exactly the caught failure
modes — a syntactically invalid snapshot and record entries missing a
required field — warning and falling back (newest timestamped file, then
the legacy file, then an empty index); a directory with zero snapshot
files and no legacy file yields an empty store with no error; and only
the newest timestamped snapshot is ever read.  (Other malformed persisted
data, such as an unparsable `created_at`, escapes the constructor — see
the counterexample.) -/
theorem load_prompts_tolerant_spec :
    (∀ (now : Datetime) (fs : StorageFS), benignFS now fs = true →
      ∃ idx : Index, _load_prompts now fs = Except.ok idx) ∧
    (∀ now : Datetime, _load_prompts now ⟨[], Option.none⟩ = Except.ok []) ∧
    (∀ (now : Datetime) (f g : FileContent) (rest : List FileContent)
      (legacy : Option FileContent),
      _load_prompts now ⟨f :: g :: rest, legacy⟩
        = _load_prompts now ⟨[f], legacy⟩) := by
  refine ⟨load_prompts_benign, fun now => rfl, ?_⟩
  intro now f g rest legacy
  cases f <;> rfl

/-- Witness for C4: a concrete benign directory state — unreadable newest
snapshot, legacy file with one good and one missing-field record — loads
without error, and the empty directory loads empty. -/
theorem load_prompts_tolerant_spec_witness :
    (∃ idx : Index, _load_prompts dt0 fsBenign = Except.ok idx) ∧
    _load_prompts dt0 ⟨[], Option.none⟩ = Except.ok [] :=
  ⟨load_prompts_tolerant_spec.1 dt0 fsBenign (by decide),
   load_prompts_tolerant_spec.2.1 dt0⟩

/-- C4 counterexample: a well-parsed newest snapshot holding a record
whose `created_at` is not a timestamp makes construction raise
ValueError — `except (json.JSONDecodeError, KeyError)` does not catch it,
so malformed persisted data can be propagated as a fatal error. -/
theorem load_prompts_raises_on_bad_created_at :
    _load_prompts dt0 fsBadDate = Except.error PyErr.valueError := rfl
